import Mathlib

/-!
# finance-app: document mutator and session middleware

A shallow embedding of `src/server/user-methods.js`, `src/server/validation.js`
and of the `authenticateRequest` middleware and the login, logout and mutating
routes of `src/server/server.js`.

* The database (`pool`) is an explicit state `Db` that every operation takes and
  returns; `pool.query` rejects exactly when `Db.available` is `false`.
* A thrown `Error` is a value of `Err`; `Err.message` is the text given to `new Error`.
* JavaScript numbers are `JSNumber`: NaN, the two infinities, or a finite value kept
  as the exact rational it denotes (`-0` and `+0` are one value).
* Built-ins whose full definition lives in the language runtime and not in this
  repository (`String.prototype.toLowerCase`, the conversions between strings and
  numbers) are the fields of `Platform`; every function that calls one takes the
  platform as its first argument, and the general theorems hold for every platform.
  `node` is the instance used to evaluate the code on concrete inputs.
-/

deriving instance DecidableEq for Except

namespace FinanceApp

/-! ## JavaScript values -/

/-- A JavaScript number. -/
inductive JSNumber where
  | nan
  | posInf
  | negInf
  | fin (q : ℚ)
  deriving DecidableEq

/-- The primitive values a parsed JSON request body can hold for a key
(`undefined` when the key is missing). -/
inductive JSValue where
  | undefined
  | null
  | bool (b : Bool)
  | number (n : JSNumber)
  | string (s : String)
  deriving DecidableEq

/-- Runtime built-ins used by the code and defined outside the repository. -/
structure Platform where
  /-- Models `String.prototype.toLowerCase`. -/
  toLowerCase : String → String
  /-- Models `Number(s)` for a string `s` (the abstract operation StringToNumber). -/
  stringToNumber : String → JSNumber
  /-- Models `parseFloat(s)` for a string `s`. -/
  parseFloatString : String → JSNumber
  /-- Models `Number.prototype.toString` of a finite number, as `JSON.stringify` prints it. -/
  numberToString : ℚ → String

/-- Models `Number(v)`: the abstract operation ToNumber. -/
def toNumber (P : Platform) : JSValue → JSNumber
  | .undefined => .nan
  | .null => .fin 0
  | .bool true => .fin 1
  | .bool false => .fin 0
  | .number n => n
  | .string s => P.stringToNumber s

/-- The global `isNaN(v)`: `Number(v)` is NaN. -/
def isNaN (P : Platform) (v : JSValue) : Bool :=
  match toNumber P v with
  | .nan => true
  | _ => false

/-- The global `parseFloat(v)`: the argument is converted to a string first, so
`undefined`, `null`, `true` and `false` become the texts "undefined", "null",
"true" and "false", none of which starts with a decimal literal; a number prints
to a text that parses back to the same number. -/
def parseFloat (P : Platform) : JSValue → JSNumber
  | .undefined => .nan
  | .null => .nan
  | .bool _ => .nan
  | .number n => n
  | .string s => P.parseFloatString s

/-- The comparison `n <= 0` on numbers (false for NaN). -/
def JSNumber.leZero : JSNumber → Bool
  | .nan => false
  | .posInf => false
  | .negInf => true
  | .fin q => decide (q ≤ 0)

/-- A number is finite. -/
def JSNumber.isFinite : JSNumber → Bool
  | .fin _ => true
  | _ => false

/-! ## Data model -/

/-- The value of an entry's `amount` property: `null` or a number. -/
inductive Amount where
  | null
  | number (n : JSNumber)
  deriving DecidableEq

/-- One income or expense entry. -/
structure Entry where
  name : String
  amount : Amount
  deriving DecidableEq

/-- The per-user JSON document. -/
structure Ledger where
  expenses : List Entry
  incomes : List Entry
  deriving DecidableEq

/-- A row of table `users`. -/
structure UserRow where
  username : String
  password : String
  data : Ledger
  deriving DecidableEq

/-- A row of table `refreshtokens`. -/
structure TokenRow where
  token : String
  username : String
  deriving DecidableEq

/-- The state behind `pool`. -/
structure Db where
  users : List UserRow
  refreshtokens : List TokenRow
  /-- Whether `pool.query` resolves (`true`) or rejects (`false`). -/
  available : Bool
  deriving DecidableEq

/-- Which list of the ledger an operation works on. `addExpense`/`addIncome` and
`deleteExpense`/`deleteIncome` are the same text up to this choice. -/
inductive Field where
  | expenses
  | incomes
  deriving DecidableEq

/-- Read `data.expenses` or `data.incomes`. -/
def Field.get : Field → Ledger → List Entry
  | .expenses, d => d.expenses
  | .incomes, d => d.incomes

/-- Assign `data.expenses` or `data.incomes`. -/
def Field.set : Field → Ledger → List Entry → Ledger
  | .expenses, d, xs => { d with expenses := xs }
  | .incomes, d, xs => { d with incomes := xs }

/-- The word used in the error messages of a field. -/
def Field.label : Field → String
  | .expenses => "Expense"
  | .incomes => "Income"

/-- The property name of a field. -/
def Field.key : Field → String
  | .expenses => "expenses"
  | .incomes => "incomes"

/-- The errors thrown by the user methods. -/
inductive Err where
  | usernameRequired
  | usernameInvalid
  | nameRequired (f : Field)
  | amountNotPositive (f : Field)
  | sizeLimitExceeded
  | dataMissing (f : Field)
  | notFound (f : Field) (name : String)
  | queryFailed
  | passwordRequired
  | passwordTooShort
  | passwordTooWeak
  | uniqueViolation
  deriving DecidableEq

/-- The message of the thrown `Error`. -/
def Err.message : Err → String
  | .usernameRequired => "Username is required"
  | .usernameInvalid => "Username can only contain letters, numbers, and underscores"
  | .nameRequired f => f.label ++ " name is required"
  | .amountNotPositive f => f.label ++ " amount must be a positive number"
  | .sizeLimitExceeded => "Data size limit exceeded"
  | .dataMissing f => "User data does not exist or the " ++ f.key ++ " field is missing"
  | .notFound f name => f.label ++ " with the name \"" ++ name ++ "\" not found."
  | .queryFailed => "query failed"
  | .passwordRequired => "Password is required"
  | .passwordTooShort => "Password must be at least 8 characters long"
  | .passwordTooWeak =>
    "Password must include uppercase, lowercase, number, and special character"
  | .uniqueViolation => "duplicate key value violates unique constraint"

/-! ## validation.js -/

/-- The character class `[a-zA-Z0-9_]`. -/
def isUsernameChar (c : Char) : Bool :=
  ('a' ≤ c && c ≤ 'z') || ('A' ≤ c && c ≤ 'Z') || ('0' ≤ c && c ≤ '9') || c == '_'

/-- The test `/^[a-zA-Z0-9_]+$/.test(username)`: without the `m` flag `$` matches
only at the end of the input, so the whole string is one or more class characters. -/
def usernameIsValid (username : String) : Bool :=
  !username.data.isEmpty && username.data.all isUsernameChar

/-- Models `validateUsername(username)`: throws unless the regular expression matches. -/
def validateUsername (username : String) : Except Err Unit :=
  if usernameIsValid username then .ok () else .error .usernameInvalid

/-! ## The store -/

/-- SQL `LOWER($1)`. Every query that uses it runs after `validateUsername`, so its
argument is ASCII and lower-casing the letters `A`-`Z` is the whole function. -/
def sqlLower (s : String) : String :=
  String.mk (s.data.map Char.toLower)

/-- Models `JSON.parse(JSON.stringify(amount))`: a non-finite number is written as `null`. -/
def Amount.toJSON : Amount → Amount
  | .number (.fin q) => .number (.fin q)
  | _ => .null

/-- Models `JSON.parse(JSON.stringify(entry))`. -/
def Entry.toJSON (e : Entry) : Entry :=
  { e with amount := e.amount.toJSON }

/-- The document the database holds after `JSON.stringify(data)` is written to the
`data` column, which is also what `RETURNING data` gives back. -/
def Ledger.toJSON (d : Ledger) : Ledger :=
  { expenses := d.expenses.map Entry.toJSON, incomes := d.incomes.map Entry.toJSON }

/-- Byte length of the UTF-8 text `JSON.stringify` emits for one character of a
string: the quote and the backslash are escaped with a backslash, the control
characters below U+0020 as a two-character escape (backspace, tab, line feed, form
feed, carriage return) or as a six-character unicode escape, every other character
is copied. -/
def jsonCharBytes (c : Char) : Nat :=
  if c = '"' ∨ c = '\\' then 2
  else if c.toNat < 32 then
    (if c.toNat = 8 ∨ c.toNat = 9 ∨ c.toNat = 10 ∨ c.toNat = 12 ∨ c.toNat = 13 then 2 else 6)
  else c.utf8Size

/-- Models `Buffer.byteLength(JSON.stringify(s))` for a string `s`. -/
def jsonStringBytes (s : String) : Nat :=
  2 + (s.data.map jsonCharBytes).sum

/-- Models `Buffer.byteLength(JSON.stringify(a))` for an amount: `null` for `null`, NaN and
the infinities, the printed number otherwise. -/
def jsonAmountBytes (P : Platform) : Amount → Nat
  | .number (.fin q) => (P.numberToString q).utf8ByteSize
  | _ => 4

/-- Models `Buffer.byteLength(JSON.stringify({ name, amount }))`: the braces, the two keys
with their colons and the comma are 19 bytes. -/
def jsonEntryBytes (P : Platform) (e : Entry) : Nat :=
  19 + jsonStringBytes e.name + jsonAmountBytes P e.amount

/-- Byte length of the elements of a serialised array with the commas between them
(the brackets are not counted). -/
def jsonElemsBytes (P : Platform) : List Entry → Nat
  | [] => 0
  | [e] => jsonEntryBytes P e
  | e :: es => jsonEntryBytes P e + 1 + jsonElemsBytes P es

/-- Models `Buffer.byteLength(JSON.stringify(data))` for a ledger: the text
`{"expenses":[],"incomes":[]}` is 28 bytes. -/
def jsonLedgerBytes (P : Platform) (d : Ledger) : Nat :=
  28 + jsonElemsBytes P d.expenses + jsonElemsBytes P d.incomes

/-- Models `Buffer.byteLength(JSON.stringify(data))` where `data` may be `null`. -/
def jsonDataBytes (P : Platform) : Option Ledger → Nat
  | none => 4
  | some d => jsonLedgerBytes P d

/-- The constant `dataSizeLimit = 1024 * 1024`. -/
def dataSizeLimit : Nat := 1024 * 1024

/-- Models `getUserData(username)`: every throw inside the `try` (missing username, invalid
username, rejected query) is caught and turned into `null`; otherwise the `data` of
the first row whose username is `LOWER(username)`, or `null` without such a row. -/
def getUserData (db : Db) (username : String) : Option Ledger :=
  if username = "" then none
  else if !usernameIsValid username then none
  else if !db.available then none
  else
    match db.users.filter (fun r => r.username = sqlLower username) with
    | [] => none
    | r :: _ => some r.data

/-- The query `UPDATE users SET data = $1 WHERE username = LOWER($2) RETURNING data`
with `$1 = JSON.stringify(data)`, followed by
`res.rowCount > 0 ? res.rows[0].data : null`. -/
def updateUserData (db : Db) (username : String) (data : Ledger) :
    Except Err (Option Ledger) × Db :=
  if !db.available then (.error .queryFailed, db)
  else
    let stored := data.toJSON
    let users := db.users.map
      (fun r => if r.username = sqlLower username then { r with data := stored } else r)
    let rows := (db.users.filter (fun r => r.username = sqlLower username)).map (fun _ => stored)
    (.ok rows.head?, { db with users := users })

/-! ## user-methods.js: the mutators -/

/-- The comparison `expense.amount === n` for a number `n`: false when the stored
amount is `null` and when either side is NaN. -/
def strictEquals : Amount → JSNumber → Bool
  | .null, _ => false
  | .number .nan, _ => false
  | .number _, .nan => false
  | .number m, n => decide (m = n)

/-- The `forEach` loop of `addExpense`/`addIncome`, with the flag
`expenseFound`/`incomeFound` threaded through. For an entry whose lower-cased name
equals the lower-cased given name: when the amounts are strictly equal the callback
returns (the entry and the flag are left as they are), otherwise the amount is
overwritten and the flag is set. -/
def forEachUpdate (P : Platform) (name : String) (amount : JSNumber) :
    List Entry → Bool → List Entry × Bool
  | [], found => ([], found)
  | e :: es, found =>
    if P.toLowerCase e.name = P.toLowerCase name then
      if strictEquals e.amount amount then
        let r := forEachUpdate P name amount es found
        (e :: r.1, r.2)
      else
        let r := forEachUpdate P name amount es true
        ({ e with amount := .number amount } :: r.1, r.2)
    else
      let r := forEachUpdate P name amount es found
      (e :: r.1, r.2)

/-- The common body of `addExpense(username, expenseName, expenseAmount)` and
`addIncome(username, incomeName, incomeAmount)`. -/
def addEntry (P : Platform) (f : Field) (db : Db) (username name : String)
    (amount : JSValue) : Except Err (Option Ledger) × Db :=
  if username = "" then (.error .usernameRequired, db)
  else if !usernameIsValid username then (.error .usernameInvalid, db)
  else if name = "" then (.error (.nameRequired f), db)
  else if isNaN P amount || (parseFloat P amount).leZero then
    (.error (.amountNotPositive f), db)
  else
    let data := getUserData db username
    let newSize := jsonDataBytes P data +
      jsonEntryBytes P { name := name, amount := .number (parseFloat P amount) }
    if newSize > dataSizeLimit then (.error .sizeLimitExceeded, db)
    else
      match data with
      | none => (.error (.dataMissing f), db)
      | some d =>
        let r := forEachUpdate P name (parseFloat P amount) (f.get d) false
        let entries :=
          if r.2 then r.1
          else r.1 ++ [{ name := name, amount := .number (parseFloat P amount) }]
        updateUserData db username (f.set d entries)

/-- Models `addExpense(username, expenseName, expenseAmount)`. -/
def addExpense (P : Platform) (db : Db) (username expenseName : String)
    (expenseAmount : JSValue) : Except Err (Option Ledger) × Db :=
  addEntry P .expenses db username expenseName expenseAmount

/-- Models `addIncome(username, incomeName, incomeAmount)`. -/
def addIncome (P : Platform) (db : Db) (username incomeName : String)
    (incomeAmount : JSValue) : Except Err (Option Ledger) × Db :=
  addEntry P .incomes db username incomeName incomeAmount

/-- The common body of `deleteExpense(username, expenseName)` and
`deleteIncome(username, incomeName)`. -/
def deleteEntry (P : Platform) (f : Field) (db : Db) (username name : String) :
    Except Err (Option Ledger) × Db :=
  if username = "" then (.error .usernameRequired, db)
  else if !usernameIsValid username then (.error .usernameInvalid, db)
  else if name = "" then (.error (.nameRequired f), db)
  else
    match getUserData db username with
    | none => (.error (.dataMissing f), db)
    | some d =>
      let originalLength := (f.get d).length
      let kept := (f.get d).filter
        (fun e => decide (P.toLowerCase e.name ≠ P.toLowerCase name))
      if kept.length = originalLength then (.error (.notFound f name), db)
      else updateUserData db username (f.set d kept)

/-- Models `deleteExpense(username, expenseName)`. -/
def deleteExpense (P : Platform) (db : Db) (username expenseName : String) :
    Except Err (Option Ledger) × Db :=
  deleteEntry P .expenses db username expenseName

/-- Models `deleteIncome(username, incomeName)`. -/
def deleteIncome (P : Platform) (db : Db) (username incomeName : String) :
    Except Err (Option Ledger) × Db :=
  deleteEntry P .incomes db username incomeName

/-! ## The platform used for evaluation

`node` gives the built-ins on the inputs the code is evaluated at below: ASCII
letters for `toLowerCase`, decimal and prefixed integer literals for the conversions
from strings (the value is the exact one written, not rounded to binary64), and
integers and short decimals for the conversion to a string. -/

/-- The characters `Number` and `parseFloat` skip as white space. -/
def isStrWhiteSpace (c : Char) : Bool :=
  [9, 10, 11, 12, 13, 32, 160, 5760, 8192, 8193, 8194, 8195, 8196, 8197, 8198, 8199,
    8200, 8201, 8202, 8232, 8233, 8239, 8287, 12288, 65279].contains c.toNat

/-- Value of a digit character in a base up to 16, if it is one. -/
def digitValue (base : Nat) (c : Char) : Option Nat :=
  let v :=
    if '0' ≤ c ∧ c ≤ '9' then c.toNat - 48
    else if 'a' ≤ c ∧ c ≤ 'f' then c.toNat - 87
    else if 'A' ≤ c ∧ c ≤ 'F' then c.toNat - 55
    else 16
  if v < base then some v else none

/-- Value of a list of digit characters (most significant first). -/
def digitsValue (base : Nat) (cs : List Char) : Nat :=
  cs.foldl (fun acc c => acc * base + (digitValue base c).getD 0) 0

/-- Split off the longest prefix of decimal digits. -/
def spanDigits (cs : List Char) : List Char × List Char :=
  cs.span (fun c => (digitValue 10 c).isSome)

/-- The number `mantissa * 10 ^ (exponent - scale)`. -/
def decimalValue (mantissa scale : Nat) (exponent : Int) : ℚ :=
  let e := exponent - scale
  if 0 ≤ e then (mantissa : ℚ) * (10 : ℚ) ^ e.toNat
  else (mantissa : ℚ) / (10 : ℚ) ^ (-e).toNat

/-- The optional exponent part after a mantissa: `e` or `E`, an optional sign and at
least one digit; without a digit the exponent is not part of the literal. -/
def scanExponent (cs : List Char) : Int × List Char :=
  match cs with
  | c :: r =>
    if c = 'e' ∨ c = 'E' then
      let signed : Bool × List Char :=
        match r with
        | '+' :: r2 => (false, r2)
        | '-' :: r2 => (true, r2)
        | _ => (false, r)
      let d := spanDigits signed.2
      if d.1.isEmpty then (0, cs)
      else ((if signed.1 then -(digitsValue 10 d.1 : Int) else (digitsValue 10 d.1 : Int)), d.2)
    else (0, cs)
  | [] => (0, cs)

/-- The longest prefix that is an unsigned decimal literal (`Infinity`, digits with
an optional fraction and exponent, or a fraction starting with the dot), with its
value and the rest of the input. -/
def scanUnsigned (cs : List Char) : Option (JSNumber × List Char) :=
  if "Infinity".data.isPrefixOf cs then some (.posInf, cs.drop 8)
  else
    let ip := spanDigits cs
    match ip.2 with
    | '.' :: r =>
      let fp := spanDigits r
      if ip.1.isEmpty ∧ fp.1.isEmpty then none
      else
        let ex := scanExponent fp.2
        some (.fin (decimalValue (digitsValue 10 (ip.1 ++ fp.1)) fp.1.length ex.1), ex.2)
    | _ =>
      if ip.1.isEmpty then none
      else
        let ex := scanExponent ip.2
        some (.fin (decimalValue (digitsValue 10 ip.1) 0 ex.1), ex.2)

/-- Negation of a number. -/
def JSNumber.neg : JSNumber → JSNumber
  | .nan => .nan
  | .posInf => .negInf
  | .negInf => .posInf
  | .fin q => .fin (-q)

/-- The longest prefix that is a decimal literal with an optional sign. -/
def scanSigned (cs : List Char) : Option (JSNumber × List Char) :=
  match cs with
  | '+' :: r => scanUnsigned r
  | '-' :: r => (scanUnsigned r).map (fun p => (p.1.neg, p.2))
  | _ => scanUnsigned cs

/-- Models `parseFloat` on a string: leading white space is skipped and the longest prefix
that is a decimal literal is converted; NaN when there is none. -/
def nodeParseFloat (s : String) : JSNumber :=
  match scanSigned (s.data.dropWhile isStrWhiteSpace) with
  | some p => p.1
  | none => .nan

/-- An integer literal with prefix `0x`, `0o` or `0b` (either case). -/
def scanPrefixed (cs : List Char) : Option JSNumber :=
  match cs with
  | '0' :: c :: r =>
    let base : Nat :=
      if c = 'x' ∨ c = 'X' then 16 else if c = 'o' ∨ c = 'O' then 8
      else if c = 'b' ∨ c = 'B' then 2 else 0
    if base ≠ 0 ∧ !r.isEmpty ∧ r.all (fun d => (digitValue base d).isSome) then
      some (.fin (digitsValue base r))
    else none
  | _ => none

/-- Models `Number` on a string: white space is trimmed on both sides; the empty text is
`0`; otherwise the whole text must be one numeric literal. -/
def nodeStringToNumber (s : String) : JSNumber :=
  let cs := ((s.data.dropWhile isStrWhiteSpace).reverse.dropWhile isStrWhiteSpace).reverse
  if cs.isEmpty then .fin 0
  else
    match scanPrefixed cs with
    | some n => n
    | none =>
      match scanSigned cs with
      | some (n, []) => n
      | _ => .nan

/-- Digits of the fraction `r / d` (with `r < d`), at most `fuel` of them. -/
def fractionDigits (d : Nat) : Nat → Nat → List Char
  | 0, _ => []
  | fuel + 1, r =>
    if r = 0 then []
    else Nat.digitChar (r * 10 / d) :: fractionDigits d fuel (r * 10 % d)

/-- Models `Number.prototype.toString` on integers and short decimals. -/
def nodeNumberToString (q : ℚ) : String :=
  let sign := if q < 0 then "-" else ""
  let n := q.num.natAbs
  let whole := String.mk (Nat.toDigits 10 (n / q.den))
  if n % q.den = 0 then sign ++ whole
  else sign ++ whole ++ "." ++ String.mk (fractionDigits q.den 20 (n % q.den))

/-- The platform the code is evaluated on. -/
def node : Platform where
  toLowerCase := fun s => String.mk (s.data.map Char.toLower)
  stringToNumber := nodeStringToNumber
  parseFloatString := nodeParseFloat
  numberToString := nodeNumberToString

/-! ## server.js: the session middleware -/

/-- The `name` of the error `jwt.verify` reports. -/
inductive JwtError where
  | TokenExpiredError
  | JsonWebTokenError
  | NotBeforeError
  deriving DecidableEq

/-- The decoded token payload that becomes `req.user`. -/
structure Payload where
  username : String
  deriving DecidableEq

/-- The `jsonwebtoken` library with the two secrets of the environment, at the time
of the request. -/
structure Jwt where
  /-- Models `jwt.verify(token, process.env.ACCESS_TOKEN_SECRET)`. -/
  verifyAccess : String → Except JwtError Payload
  /-- Models `jwt.verify(token, process.env.REFRESH_TOKEN_SECRET)`. -/
  verifyRefresh : String → Except JwtError Payload
  /-- Models `jwt.sign({ username }, process.env.ACCESS_TOKEN_SECRET, { expiresIn: "15m" })`. -/
  signAccess : String → String
  /-- Models `jwt.sign({ username }, process.env.REFRESH_TOKEN_SECRET)`. -/
  signRefresh : String → String

/-- The two cookies read from `req.cookies` (`none` when the cookie is not sent). -/
structure Cookies where
  authToken : Option String
  refreshToken : Option String
  deriving DecidableEq

/-- What the middleware does with a request. -/
inductive AuthOutcome where
  /-- Models `res.redirect(location)`; `next` is not called. -/
  | redirect (location : String)
  /-- Models `req.user = user; next()`, after `res.cookie("authToken", t)` when `authCookie`
  is `some t`. -/
  | next (user : Payload) (authCookie : Option String)
  /-- The query rejected inside the asynchronous callback: no response, no `next`. -/
  | queryRejected
  /-- The synchronous `jwt.verify` of the refresh token threw inside the asynchronous
  callback: no response, no `next`. -/
  | verifyThrew (e : JwtError)
  deriving DecidableEq

/-- Models `generateAccessToken(username)`. -/
def generateAccessToken (J : Jwt) (username : String) : String :=
  J.signAccess username

/-- Models `generateRefreshToken(username)`. -/
def generateRefreshToken (J : Jwt) (username : String) : String :=
  J.signRefresh username

/-- The synchronous `jwt.verify(refreshToken, process.env.REFRESH_TOKEN_SECRET)` on
the cookie value; a missing token is reported as a `JsonWebTokenError`. -/
def verifyRefreshCookie (J : Jwt) : Option String → Except JwtError Payload
  | none => .error .JsonWebTokenError
  | some t => J.verifyRefresh t

/-- The rows of `SELECT username FROM refreshtokens WHERE token=$1` for the cookie
value (no row equals a missing value). -/
def selectRefreshToken (db : Db) (refreshToken : Option String) : List TokenRow :=
  db.refreshtokens.filter (fun r => decide (some r.token = refreshToken))

/-- Models `authenticateRequest(req, res, next)`. -/
def authenticateRequest (J : Jwt) (db : Db) (cookies : Cookies) : AuthOutcome :=
  match cookies.authToken with
  | none => .redirect "/login"
  | some authToken =>
    if authToken = "" then .redirect "/login"
    else
      match J.verifyAccess authToken with
      | .error err =>
        if err = .TokenExpiredError then
          if !db.available then .queryRejected
          else if (selectRefreshToken db cookies.refreshToken).length > 0 then
            match verifyRefreshCookie J cookies.refreshToken with
            | .ok user => .next user (some (generateAccessToken J user.username))
            | .error e => .verifyThrew e
          else .redirect "/login"
        else .redirect "/login"
      | .ok user => .next user none

/-! ## validation.js: the password -/

/-- The property `length` of a string: its number of UTF-16 code units, two for a
character outside the basic plane. -/
def jsLength (s : String) : Nat :=
  (s.data.map (fun c => if c.toNat < 65536 then 1 else 2)).sum

/-- The character class of the pattern for special characters. -/
def isSpecialChar (c : Char) : Bool :=
  ['!', '@', '#', '$', '%', '^', '&', '*', '(', ')', ',', '.', '?', '"', ':', '{', '}',
    '|', '<', '>'].contains c

/-- Models `validatePassword(password)`: the four pattern tests, then the length
check, then the complexity check. -/
def validatePassword (password : String) : Except Err Unit :=
  let minLength := 8
  let hasUppercase := password.data.any (fun c => 'A' ≤ c && c ≤ 'Z')
  let hasLowercase := password.data.any (fun c => 'a' ≤ c && c ≤ 'z')
  let hasNumber := password.data.any (fun c => '0' ≤ c && c ≤ '9')
  let hasSpecialChar := password.data.any isSpecialChar
  if jsLength password < minLength then .error .passwordTooShort
  else if !hasUppercase || !hasLowercase || !hasNumber || !hasSpecialChar then
    .error .passwordTooWeak
  else .ok ()

/-! ## user-methods.js: the user rows -/

/-- The `bcryptjs` library: `hash(password, 10)` at the time of the call (the salt is
drawn by the library) and `compare(password, hash)`. -/
structure Bcrypt where
  hash : String → String
  compare : String → String → Bool

/-- Models `checkUserExists(username)`: whether a row has the username
`LOWER(username)`; errors are logged and thrown again. -/
def checkUserExists (db : Db) (username : String) : Except Err Bool :=
  if username = "" then .error .usernameRequired
  else if !usernameIsValid username then .error .usernameInvalid
  else if !db.available then .error .queryFailed
  else .ok ((db.users.filter (fun r => r.username = sqlLower username)).length > 0)

/-- Modelled from the spec: the definition of table `users` is not among the sources.
The data model says the username of a user is unique, and the signup route handles
the error code `23505` of a unique violation, so an insert is rejected when a row
with the same username is present. -/
def violatesUniqueUsername (db : Db) (username : String) : Bool :=
  db.users.any (fun r => r.username = username)

/-- Models `createUser(username, password)`: the row
`(LOWER(username), hash, {expenses: [], incomes: []})` is inserted and returned, unless
the insert violates the uniqueness of usernames. -/
def createUser (B : Bcrypt) (db : Db) (username password : String) :
    Except Err UserRow × Db :=
  if username = "" then (.error .usernameRequired, db)
  else if !usernameIsValid username then (.error .usernameInvalid, db)
  else if password = "" then (.error .passwordRequired, db)
  else
    match validatePassword password with
    | .error e => (.error e, db)
    | .ok _ =>
      let row : UserRow :=
        { username := sqlLower username
          password := B.hash password
          data := { expenses := [], incomes := [] } }
      if !db.available then (.error .queryFailed, db)
      else if violatesUniqueUsername db (sqlLower username) then (.error .uniqueViolation, db)
      else (.ok row, { db with users := db.users ++ [row] })

/-- Models `deleteUser(username)`: the rows with username `LOWER(username)` are
deleted; the result tells whether there was one. -/
def deleteUser (db : Db) (username : String) : Except Err Bool × Db :=
  if username = "" then (.error .usernameRequired, db)
  else if !usernameIsValid username then (.error .usernameInvalid, db)
  else if !db.available then (.error .queryFailed, db)
  else
    (.ok ((db.users.filter (fun r => r.username = sqlLower username)).length > 0),
      { db with users := db.users.filter (fun r => decide (r.username ≠ sqlLower username)) })

/-! ## server.js: the routes -/

/-- The body passed to `res.json`. -/
inductive JsonBody where
  /-- The object `{ status, message }`. -/
  | message (status : Nat) (message : String)
  /-- The object `{ status, data }`. -/
  | data (status : Nat) (data : Option Ledger)
  deriving DecidableEq

/-- The response a handler sends, with its HTTP status code where one applies. -/
inductive Response where
  | redirect (location : String)
  | sendFile (path : String)
  | json (code : Nat) (body : JsonBody)
  | send (code : Nat) (text : String)
  deriving DecidableEq

/-- A cookie instruction on the response: `res.cookie(name, value)` or
`res.clearCookie(name)`. -/
inductive CookieOp where
  | set (name value : String)
  | clear (name : String)
  deriving DecidableEq

/-- The cookie instructions and the response of a handler. -/
structure Reply where
  cookies : List CookieOp
  response : Response
  deriving DecidableEq

/-- The `try`/`catch` shared by the four mutating routes: a returned document is sent
as `{ status: 0, data }`; a thrown error is sent with code 500 as
`{ status: 1, message: err.message }`. -/
def mutatorReply (r : Except Err (Option Ledger) × Db) : Response × Db :=
  match r with
  | (.ok updatedData, db) => (.json 200 (.data 0 updatedData), db)
  | (.error err, db) => (.json 500 (.message 1 err.message), db)

/-- The handler of `POST /add-expense` for the authenticated user; a key missing from
the body is `none`, which fails the name check as the empty string does. -/
def postAddExpense (P : Platform) (db : Db) (user : Payload) (expenseName : Option String)
    (expenseAmount : JSValue) : Response × Db :=
  mutatorReply (addExpense P db user.username (expenseName.getD "") expenseAmount)

/-- The handler of `POST /add-income` for the authenticated user. -/
def postAddIncome (P : Platform) (db : Db) (user : Payload) (incomeName : Option String)
    (incomeAmount : JSValue) : Response × Db :=
  mutatorReply (addIncome P db user.username (incomeName.getD "") incomeAmount)

/-- The handler of `DELETE /delete-expense` for the authenticated user. -/
def deleteDeleteExpense (P : Platform) (db : Db) (user : Payload)
    (expenseName : Option String) : Response × Db :=
  mutatorReply (deleteExpense P db user.username (expenseName.getD ""))

/-- The handler of `DELETE /delete-income` for the authenticated user. -/
def deleteDeleteIncome (P : Platform) (db : Db) (user : Payload)
    (incomeName : Option String) : Response × Db :=
  mutatorReply (deleteIncome P db user.username (incomeName.getD ""))

/-- The query `DELETE FROM refreshtokens WHERE username=LOWER($1)`. -/
def deleteRefreshTokens (db : Db) (username : String) : Db :=
  { db with refreshtokens :=
      db.refreshtokens.filter (fun r => decide (r.username ≠ sqlLower username)) }

/-- The handler of `POST /login`. The column `created` of the inserted row is not
kept in `TokenRow`. -/
def postLogin (J : Jwt) (B : Bcrypt) (db : Db) (username password : String) : Reply × Db :=
  match validateUsername username with
  | .error err => ({ cookies := [], response := .json 200 (.message 1 err.message) }, db)
  | .ok _ =>
    match validatePassword password with
    | .error err => ({ cookies := [], response := .json 200 (.message 1 err.message) }, db)
    | .ok _ =>
      if !db.available then
        ({ cookies := [],
           response := .json 200 (.message 1 "Login unpermitted due to error.") }, db)
      else
        match (db.users.filter (fun r => r.username = sqlLower username)).head? with
        | none => ({ cookies := [], response := .json 200 (.message 1 "User not found!") }, db)
        | some user =>
          if !B.compare password user.password then
            ({ cookies := [],
               response := .json 200 (.message 1 "Credentials do not match!") }, db)
          else
            let db1 := deleteRefreshTokens db username
            let accessToken := generateAccessToken J username
            let refreshToken := generateRefreshToken J username
            let db2 := { db1 with refreshtokens := db1.refreshtokens ++
              [{ token := refreshToken, username := sqlLower username }] }
            ({ cookies := [.set "refreshToken" refreshToken, .set "authToken" accessToken],
               response := .json 200 (.message 0 "Login successful.") }, db2)

/-- The cookie the middleware sets before `next()`: the new access token after a
refresh, nothing otherwise. -/
def authCookieOps : Option String → List CookieOp
  | some t => [.set "authToken" t]
  | none => []

/-- The route `GET /logout`: the middleware, then the handler, which clears the two
cookies, deletes the refresh tokens of `req.user.username` and redirects to `/login`,
or answers with code 500 when the query rejects. The reply is `none` when the
middleware neither responds nor calls `next`. -/
def getLogout (J : Jwt) (db : Db) (cookies : Cookies) : Option Reply × Db :=
  match authenticateRequest J db cookies with
  | .redirect location => (some { cookies := [], response := .redirect location }, db)
  | .next user authCookie =>
    let refreshed := authCookieOps authCookie
    if !db.available then
      (some { cookies := refreshed ++ [.clear "authToken", .clear "refreshToken"],
              response := .send 500 "Error logging out." }, db)
    else
      (some { cookies := refreshed ++ [.clear "authToken", .clear "refreshToken"],
              response := .redirect "/login" }, deleteRefreshTokens db user.username)
  | .queryRejected => (none, db)
  | .verifyThrew _ => (none, db)

/-- The handler of `GET /login`. Inside the `try`, `return res.redirect("/dashboard")`
runs only when the refresh token verifies and the query finds a row; when no row is
found the `try` block ends without a `return` and control reaches the last statement
of the callback, `return res.redirect("/dashboard")`. A throw inside the `try` (the
verification or the query) serves the login page. -/
def getLogin (J : Jwt) (db : Db) (cookies : Cookies) : Response :=
  match cookies.authToken, cookies.refreshToken with
  | some authToken, some refreshToken =>
    if authToken = "" ∨ refreshToken = "" then .sendFile "/routes/login/login.html"
    else
      match J.verifyAccess authToken with
      | .error err =>
        if err = .TokenExpiredError then
          match J.verifyRefresh refreshToken with
          | .ok _ =>
            if !db.available then .sendFile "/routes/login/login.html"
            else if (selectRefreshToken db (some refreshToken)).length > 0 then
              .redirect "/dashboard"
            else .redirect "/dashboard"
          | .error _ => .sendFile "/routes/login/login.html"
        else .sendFile "/routes/login/login.html"
      | .ok _ => .redirect "/dashboard"
  | _, _ => .sendFile "/routes/login/login.html"

/-- The list `addExpense`/`addIncome` hand to the `UPDATE`: the entries left by the
loop, followed by the new entry when the flag was not set. -/
def entriesAfterAdd (P : Platform) (name : String) (amount : JSNumber)
    (entries : List Entry) : List Entry :=
  if (forEachUpdate P name amount entries false).2 then
    (forEachUpdate P name amount entries false).1
  else (forEachUpdate P name amount entries false).1 ++
    [{ name := name, amount := .number amount }]

/-- The list `deleteExpense`/`deleteIncome` hand to the `UPDATE`: the entries whose
lower-cased name differs from the lower-cased given name. -/
def entriesAfterDelete (P : Platform) (name : String) (entries : List Entry) : List Entry :=
  entries.filter (fun e => decide (P.toLowerCase e.name ≠ P.toLowerCase name))

/-- The list an operation on field `f` does not touch. -/
def Field.other : Field → Field
  | .expenses => .incomes
  | .incomes => .expenses

/-! ## Concrete inputs -/

/-- A database with the single user `alice` whose document is `d`. -/
def aliceDb (d : Ledger) : Db :=
  { users := [{ username := "alice", password := "$2a$10$hash", data := d }]
    refreshtokens := []
    available := true }

/-- The document `createUser` stores for a new user. -/
def emptyLedger : Ledger :=
  { expenses := [], incomes := [] }

/-- The document of the specification's example after the first call:
`{expenses: [{name: "Rent", amount: 1200}], incomes: []}`. -/
def rentLedger : Ledger :=
  { expenses := [{ name := "Rent", amount := .number (.fin 1200) }], incomes := [] }

/-- A document with one income. -/
def salaryLedger : Ledger :=
  { expenses := [], incomes := [{ name := "Salary", amount := .number (.fin 3000) }] }

/-- A token library in which `access-alice` is a valid access token of `alice`,
`access-expired` an expired one, `refresh-alice` a valid refresh token of `alice`, and
every other text is rejected with a `JsonWebTokenError`. -/
def sampleJwt : Jwt where
  verifyAccess := fun t =>
    if t = "access-alice" then .ok { username := "alice" }
    else if t = "access-expired" then .error .TokenExpiredError
    else .error .JsonWebTokenError
  verifyRefresh := fun t =>
    if t = "refresh-alice" then .ok { username := "alice" }
    else .error .JsonWebTokenError
  signAccess := fun u => "access-" ++ u
  signRefresh := fun u => "refresh-" ++ u

/-- A database whose table `refreshtokens` holds the row of `refresh-alice`. -/
def sessionDb : Db :=
  { users := [{ username := "alice", password := "$2a$10$hash", data := emptyLedger }]
    refreshtokens := [{ token := "refresh-alice", username := "alice" }]
    available := true }

/-- The name made of `n` copies of the character `c`. -/
def letters (c : Char) (n : Nat) : String :=
  String.mk (List.replicate n c)

/-- A document with eleven expenses of amount `1` whose names are `n` copies of the
letters `a` to `k`. -/
def elevenExpenses (n : Nat) : Ledger :=
  { expenses := ['a', 'b', 'c', 'd', 'e', 'f', 'g', 'h', 'i', 'j', 'k'].map
      (fun c => { name := letters c n, amount := .number (.fin 1) })
    incomes := [] }

/-- The document `elevenExpenses n` with a twelfth expense of amount `1` whose name
is `m` copies of the letter `l`. -/
def twelveExpenses (n m : Nat) : Ledger :=
  { expenses := (elevenExpenses n).expenses ++
      [{ name := letters 'l' m, amount := .number (.fin 1) }]
    incomes := [] }

/-- Eleven expenses with names of 87356 characters: a document of 961196 bytes. -/
def largeLedger : Ledger :=
  elevenExpenses 87356

/-- The document `largeLedger` with a twelfth expense whose name has 87358
characters: a document of 1048577 bytes. -/
def largerLedger : Ledger :=
  twelveExpenses 87356 87358

/-- A database whose table `refreshtokens` holds the row of `refresh-old`, a token
that `sampleJwt` no longer verifies (one signed before the secret was changed). -/
def staleSessionDb : Db :=
  { users := [{ username := "alice", password := "$2a$10$hash", data := emptyLedger }]
    refreshtokens := [{ token := "refresh-old", username := "alice" }]
    available := true }

/-- A password library in which the hash of a password is the password after the
prefix `$2a$10$`. -/
def sampleBcrypt : Bcrypt where
  hash := fun p => "$2a$10$" ++ p
  compare := fun p h => decide (h = "$2a$10$" ++ p)

/-- A database with the users `alice` (password `Passw0rd!`) and `bob`, two refresh
tokens stored for `alice` and one for `bob`. -/
def loginDb : Db :=
  { users := [{ username := "alice", password := "$2a$10$Passw0rd!", data := emptyLedger },
              { username := "bob", password := "$2a$10$S3cret?x", data := emptyLedger }]
    refreshtokens := [{ token := "refresh-alice-1", username := "alice" },
                      { token := "refresh-bob", username := "bob" },
                      { token := "refresh-alice-2", username := "alice" }]
    available := true }

/-- A document with one expense and one income. -/
def mixedLedger : Ledger :=
  { expenses := [{ name := "Rent", amount := .number (.fin 1200) }]
    incomes := [{ name := "Salary", amount := .number (.fin 3000) }] }

/-- The document `elevenExpenses 87356` with a twelfth expense whose name has 87357
characters: a document of exactly 1048576 bytes. It is what the store holds after the
twelfth expense is added to `largeLedger`, where the size check compares 1048575 with
the limit. -/
def cappedLedger : Ledger :=
  twelveExpenses 87356 87357

/-- A database in which `alice` (password `Passw0rd!`) holds the refresh token that
`sampleJwt` signs for `alice` now: the state after a login of `alice` in the same
second, the issue time being kept in seconds. -/
def reloginDb : Db :=
  { users := [{ username := "alice", password := "$2a$10$Passw0rd!", data := emptyLedger }]
    refreshtokens := [{ token := "refresh-alice", username := "alice" }]
    available := true }

/-- Lower-casing of a character beyond ASCII where it matters for usernames: the
letters `A`-`Z`, and the Kelvin sign U+212A, whose lower-case form is the letter `k`. -/
def lowercaseChar (c : Char) : Char :=
  if c.toNat = 8490 then 'k' else c.toLower

/-- Lower-casing of a text that need not be a valid username. -/
def lowercase (s : String) : String :=
  String.mk (s.data.map lowercaseChar)

/-- The one-character text made of the Kelvin sign U+212A. -/
def kelvinName : String :=
  String.mk [Char.ofNat 8490]

/-- A database with the single user `k`. -/
def kelvinDb : Db :=
  { users := [{ username := "k", password := "$2a$10$hash", data := emptyLedger }]
    refreshtokens := []
    available := true }

/-! ## Facts about the store operations -/

theorem getUserData_some {db : Db} {username : String} {d : Ledger}
    (h : getUserData db username = some d) :
    username ≠ "" ∧ usernameIsValid username = true ∧ db.available = true ∧
      ∃ r rs, db.users.filter (fun r => r.username = sqlLower username) = r :: rs ∧
        r.data = d := by
  unfold getUserData at h
  split_ifs at h with h1 h2 h3
  · simp only [Bool.not_eq_true, Bool.not_eq_false, Bool.not_eq_true'] at h2 h3
    refine ⟨h1, ?_, ?_, ?_⟩
    · simpa using h2
    · simpa using h3
    · split at h
      · exact absurd h (by simp)
      · next r rs hr => exact ⟨r, rs, hr, by simpa using h⟩

theorem updateUserData_of_row {db : Db} {username : String} {d : Ledger} (data : Ledger)
    (h : getUserData db username = some d) :
    (updateUserData db username data).1 = .ok (some data.toJSON) ∧
      getUserData (updateUserData db username data).2 username = some data.toJSON := by
  obtain ⟨h1, h2, h3, r, rs, hr, -⟩ := getUserData_some h
  have hf : ∀ us : List UserRow,
      (us.map (fun r => if r.username = sqlLower username then
          { r with data := data.toJSON } else r)).filter
        (fun r => r.username = sqlLower username) =
      (us.filter (fun r => r.username = sqlLower username)).map
        (fun r => { r with data := data.toJSON }) := by
    intro us
    induction us with
    | nil => rfl
    | cons a as ih =>
      by_cases ha : a.username = sqlLower username
      · simp [List.filter_cons, ha, ih]
      · simp [List.filter_cons, ha, ih]
  constructor
  · simp [updateUserData, h3, hr]
  · simp only [updateUserData, h3, Bool.not_true, Bool.false_eq_true, if_false]
    unfold getUserData
    simp only [h1, h2, h3, if_false, Bool.not_true, Bool.false_eq_true]
    rw [hf, hr]
    simp

theorem forEachUpdate_fst (P : Platform) (name : String) (a : JSNumber) (xs : List Entry)
    (found : Bool) :
    (forEachUpdate P name a xs found).1 =
      xs.map (fun e =>
        if P.toLowerCase e.name = P.toLowerCase name ∧ strictEquals e.amount a = false then
          { e with amount := .number a }
        else e) := by
  induction xs generalizing found with
  | nil => rfl
  | cons e es ih =>
    unfold forEachUpdate
    by_cases hn : P.toLowerCase e.name = P.toLowerCase name
    · cases hs : strictEquals e.amount a <;> simp [hn, hs, ih]
    · simp [hn, ih]

theorem forEachUpdate_snd (P : Platform) (name : String) (a : JSNumber) (xs : List Entry)
    (found : Bool) :
    (forEachUpdate P name a xs found).2 =
      (found || xs.any (fun e =>
        decide (P.toLowerCase e.name = P.toLowerCase name) && !strictEquals e.amount a)) := by
  induction xs generalizing found with
  | nil => simp [forEachUpdate]
  | cons e es ih =>
    unfold forEachUpdate
    by_cases hn : P.toLowerCase e.name = P.toLowerCase name
    · cases hs : strictEquals e.amount a <;> simp [hn, hs, ih]
    · simp [hn, ih]

theorem strictEquals_fin (a : Amount) (q : ℚ) :
    strictEquals a (.fin q) = true ↔ a = .number (.fin q) := by
  cases a with
  | null => simp [strictEquals]
  | number m => cases m <;> simp [strictEquals]

theorem toJSON_set (f : Field) (d : Ledger) (xs : List Entry) (hjson : d.toJSON = d) :
    (f.set d xs).toJSON = f.set d (xs.map Entry.toJSON) := by
  cases d with
  | mk ex inc =>
    simp only [Ledger.toJSON, Ledger.mk.injEq] at hjson
    cases f <;> simp [Field.set, Ledger.toJSON, hjson.1, hjson.2]

theorem toJSON_get (f : Field) (d : Ledger) (hjson : d.toJSON = d) :
    (f.get d).map Entry.toJSON = f.get d := by
  cases d with
  | mk ex inc =>
    simp only [Ledger.toJSON, Ledger.mk.injEq] at hjson
    cases f <;> simp [Field.get, hjson.1, hjson.2]

theorem get_set (f : Field) (d : Ledger) (xs : List Entry) : f.get (f.set d xs) = xs := by
  cases f <;> rfl

/-- With a stored row, a non-empty name, an accepted amount and a passing size check,
`addEntry` reaches the `UPDATE` with the list left by the loop and the push. -/
theorem addEntry_of_row (P : Platform) (f : Field) (db : Db) (username name : String)
    (amount : JSValue) (d : Ledger)
    (hdata : getUserData db username = some d) (hname : name ≠ "")
    (hcheck : (isNaN P amount || (parseFloat P amount).leZero) = false)
    (hsize : jsonLedgerBytes P d +
      jsonEntryBytes P { name := name, amount := .number (parseFloat P amount) } ≤
        dataSizeLimit) :
    addEntry P f db username name amount =
      updateUserData db username (f.set d
        (if (forEachUpdate P name (parseFloat P amount) (f.get d) false).2 then
          (forEachUpdate P name (parseFloat P amount) (f.get d) false).1
        else (forEachUpdate P name (parseFloat P amount) (f.get d) false).1 ++
          [{ name := name, amount := .number (parseFloat P amount) }])) := by
  obtain ⟨h1, h2, -, -⟩ := getUserData_some hdata
  unfold addEntry
  simp only [h1, h2, hname, hcheck, hdata, jsonDataBytes, if_false, Bool.not_true,
    Bool.false_eq_true, gt_iff_lt, Nat.not_lt.mpr hsize]

theorem check_passes (P : Platform) (amount : JSValue) (q : ℚ)
    (hnum : isNaN P amount = false) (hval : parseFloat P amount = .fin q) (hpos : 0 < q) :
    (isNaN P amount || (parseFloat P amount).leZero) = false := by
  simp [hnum, hval, JSNumber.leZero, hpos]

theorem map_toJSON_update (P : Platform) (name : String) (q : ℚ) (xs : List Entry)
    (hxs : xs.map Entry.toJSON = xs) :
    (xs.map (fun e =>
        if P.toLowerCase e.name = P.toLowerCase name then
          ({ name := e.name, amount := .number (.fin q) } : Entry)
        else e)).map Entry.toJSON =
      xs.map (fun e =>
        if P.toLowerCase e.name = P.toLowerCase name then
          ({ name := e.name, amount := .number (.fin q) } : Entry)
        else e) := by
  induction xs with
  | nil => rfl
  | cons e es ih =>
    simp only [List.map_cons, List.cons.injEq] at hxs
    simp only [List.map_cons, ih hxs.2, List.cons.injEq, and_true]
    split_ifs
    · rfl
    · exact hxs.1

theorem forEachUpdate_fst_fin (P : Platform) (name : String) (q : ℚ) (xs : List Entry)
    (found : Bool) :
    (forEachUpdate P name (.fin q) xs found).1 =
      xs.map (fun e =>
        if P.toLowerCase e.name = P.toLowerCase name then
          ({ name := e.name, amount := .number (.fin q) } : Entry)
        else e) := by
  rw [forEachUpdate_fst]
  apply List.map_congr_left
  intro e _
  by_cases hn : P.toLowerCase e.name = P.toLowerCase name
  · cases hs : strictEquals e.amount (.fin q)
    · simp [hn]
    · have := (strictEquals_fin e.amount q).mp hs
      cases e
      simp_all
  · simp [hn]

/-- C2 (amended). When the size check passes (the bytes of the stored document plus
the bytes of the standalone entry are at most 1048576) and the target list holds an
entry whose name equals the given name ignoring case and whose amount differs from
the parsed amount, `addExpense` (field `expenses`)
and `addIncome` (field `incomes`) return and store the document in which every entry
of that list matching ignoring case has its amount set to the parsed amount, with its
own name kept, and every other entry is unchanged; the list keeps its length and its
names in order. -/
theorem addEntry_updates_matching (P : Platform) (f : Field) (db : Db)
    (username name : String) (amount : JSValue) (q : ℚ) (d : Ledger)
    (hdata : getUserData db username = some d) (hjson : d.toJSON = d)
    (hname : name ≠ "")
    (hnum : isNaN P amount = false) (hval : parseFloat P amount = .fin q) (hpos : 0 < q)
    (hsize : jsonLedgerBytes P d +
      jsonEntryBytes P { name := name, amount := .number (.fin q) } ≤ dataSizeLimit)
    (hmatch : ∃ e ∈ f.get d,
      P.toLowerCase e.name = P.toLowerCase name ∧ e.amount ≠ .number (.fin q)) :
    (addEntry P f db username name amount).1 =
        .ok (some (f.set d ((f.get d).map (fun e =>
          if P.toLowerCase e.name = P.toLowerCase name then
            ({ name := e.name, amount := .number (.fin q) } : Entry)
          else e)))) ∧
      getUserData (addEntry P f db username name amount).2 username =
        some (f.set d ((f.get d).map (fun e =>
          if P.toLowerCase e.name = P.toLowerCase name then
            ({ name := e.name, amount := .number (.fin q) } : Entry)
          else e))) ∧
      ((f.get d).map (fun e =>
          if P.toLowerCase e.name = P.toLowerCase name then
            ({ name := e.name, amount := .number (.fin q) } : Entry)
          else e)).length = (f.get d).length ∧
      ((f.get d).map (fun e =>
          if P.toLowerCase e.name = P.toLowerCase name then
            ({ name := e.name, amount := .number (.fin q) } : Entry)
          else e)).map Entry.name = (f.get d).map Entry.name := by
  have hcheck := check_passes P amount q hnum hval hpos
  have hfound : (forEachUpdate P name (.fin q) (f.get d) false).2 = true := by
    rw [forEachUpdate_snd]
    obtain ⟨e, he, hn, ha⟩ := hmatch
    simp only [Bool.false_or, List.any_eq_true, Bool.and_eq_true, decide_eq_true_eq,
      Bool.not_eq_true']
    refine ⟨e, he, hn, ?_⟩
    cases hs : strictEquals e.amount (.fin q)
    · rfl
    · exact absurd ((strictEquals_fin e.amount q).mp hs) ha
  rw [addEntry_of_row P f db username name amount d hdata hname hcheck
    (by rw [hval]; exact hsize)]
  rw [hval, hfound, if_pos rfl, forEachUpdate_fst_fin]
  obtain ⟨hres, hget⟩ := updateUserData_of_row (f.set d ((f.get d).map (fun e =>
    if P.toLowerCase e.name = P.toLowerCase name then
      ({ name := e.name, amount := .number (.fin q) } : Entry)
    else e))) hdata
  rw [toJSON_set f d _ hjson, map_toJSON_update P name q _ (toJSON_get f d hjson)] at hres hget
  refine ⟨hres, hget, by simp, ?_⟩
  rw [List.map_map]
  apply List.map_congr_left
  intro e _
  simp only [Function.comp]
  split_ifs <;> rfl

/-- The list after a successful `addEntry` when no entry matches: the original
entries followed by the new one. -/
theorem forEachUpdate_no_match (P : Platform) (name : String) (a : JSNumber)
    (xs : List Entry) (found : Bool)
    (hno : ∀ e ∈ xs, P.toLowerCase e.name ≠ P.toLowerCase name) :
    forEachUpdate P name a xs found = (xs, found) := by
  induction xs generalizing found with
  | nil => rfl
  | cons e es ih =>
    unfold forEachUpdate
    have h1 := hno e (List.mem_cons_self _ _)
    have h2 : ∀ e ∈ es, P.toLowerCase e.name ≠ P.toLowerCase name :=
      fun x hx => hno x (List.mem_cons_of_mem _ hx)
    simp [h1, ih found h2]

/-- With no matching entry the loop leaves the list and the flag alone, the new entry
is pushed and the document is written. -/
theorem addEntry_push (P : Platform) (f : Field) (db : Db)
    (username name : String) (amount : JSValue) (q : ℚ) (d : Ledger)
    (hdata : getUserData db username = some d) (hjson : d.toJSON = d)
    (hname : name ≠ "")
    (hnum : isNaN P amount = false) (hval : parseFloat P amount = .fin q) (hpos : 0 < q)
    (hsize : jsonLedgerBytes P d +
      jsonEntryBytes P { name := name, amount := .number (.fin q) } ≤ dataSizeLimit)
    (hno : ∀ e ∈ f.get d, P.toLowerCase e.name ≠ P.toLowerCase name) :
    (addEntry P f db username name amount).1 =
        .ok (some (f.set d (f.get d ++ [{ name := name, amount := .number (.fin q) }]))) ∧
      getUserData (addEntry P f db username name amount).2 username =
        some (f.set d (f.get d ++ [{ name := name, amount := .number (.fin q) }])) := by
  have hcheck := check_passes P amount q hnum hval hpos
  rw [addEntry_of_row P f db username name amount d hdata hname hcheck
    (by rw [hval]; exact hsize)]
  rw [hval, forEachUpdate_no_match P name (.fin q) (f.get d) false hno]
  simp only [Bool.false_eq_true, if_false]
  obtain ⟨hres, hget⟩ := updateUserData_of_row
    (f.set d (f.get d ++ [{ name := name, amount := .number (.fin q) }])) hdata
  have hm : (f.get d ++ [({ name := name, amount := .number (.fin q) } : Entry)]).map
      Entry.toJSON = f.get d ++ [{ name := name, amount := .number (.fin q) }] := by
    rw [List.map_append, toJSON_get f d hjson]
    rfl
  rw [toJSON_set f d _ hjson, hm] at hres hget
  exact ⟨hres, hget⟩

/-- C4 (amended). When the size check passes (the bytes of the stored document plus
the bytes of the standalone entry are at most 1048576), with a non-empty name that
matches no entry of the target list ignoring case and a valid amount, `addExpense` (field `expenses`) and `addIncome` (field `incomes`)
return and store the document whose target list is the original list followed by the
one new entry with the name as given and the parsed amount; the length grows by one. -/
theorem addEntry_appends_new (P : Platform) (f : Field) (db : Db)
    (username name : String) (amount : JSValue) (q : ℚ) (d : Ledger)
    (hdata : getUserData db username = some d) (hjson : d.toJSON = d)
    (hname : name ≠ "")
    (hnum : isNaN P amount = false) (hval : parseFloat P amount = .fin q) (hpos : 0 < q)
    (hsize : jsonLedgerBytes P d +
      jsonEntryBytes P { name := name, amount := .number (.fin q) } ≤ dataSizeLimit)
    (hno : ∀ e ∈ f.get d, P.toLowerCase e.name ≠ P.toLowerCase name) :
    (addEntry P f db username name amount).1 =
        .ok (some (f.set d (f.get d ++ [{ name := name, amount := .number (.fin q) }]))) ∧
      getUserData (addEntry P f db username name amount).2 username =
        some (f.set d (f.get d ++ [{ name := name, amount := .number (.fin q) }])) ∧
      (f.get d ++ [({ name := name, amount := .number (.fin q) } : Entry)]).length =
        (f.get d).length + 1 := by
  have h := addEntry_push P f db username name amount q d hdata hjson hname hnum hval hpos
    hsize hno
  exact ⟨h.1, h.2, by simp⟩

theorem map_toJSON_filter (p : Entry → Bool) (xs : List Entry)
    (hxs : xs.map Entry.toJSON = xs) :
    (xs.filter p).map Entry.toJSON = xs.filter p := by
  induction xs with
  | nil => rfl
  | cons e es ih =>
    simp only [List.map_cons, List.cons.injEq] at hxs
    by_cases hp : p e = true
    · simp [List.filter_cons, hp, ih hxs.2, hxs.1]
    · simp [List.filter_cons, hp, ih hxs.2]

/-- With a stored row and a non-empty name `deleteEntry` reaches the comparison of
the two lengths. -/
theorem deleteEntry_of_row (P : Platform) (f : Field) (db : Db) (username name : String)
    (d : Ledger) (hdata : getUserData db username = some d) (hname : name ≠ "") :
    deleteEntry P f db username name =
      if ((f.get d).filter
          (fun e => decide (P.toLowerCase e.name ≠ P.toLowerCase name))).length =
          (f.get d).length then (.error (.notFound f name), db)
      else updateUserData db username (f.set d ((f.get d).filter
          (fun e => decide (P.toLowerCase e.name ≠ P.toLowerCase name)))) := by
  obtain ⟨h1, h2, -, -⟩ := getUserData_some hdata
  unfold deleteEntry
  simp only [h1, h2, hname, hdata, if_false, Bool.not_true, Bool.false_eq_true]

/-- C6. When at least one entry of the target list equals the given name ignoring
case, `deleteExpense` (field `expenses`) and `deleteIncome` (field `incomes`) return
and store the document whose target list is the original list without the entries
whose lower-cased name equals the lower-cased given name: the non-matching entries in
their original order, none of which matches the name. -/
theorem deleteEntry_removes_matching (P : Platform) (f : Field) (db : Db)
    (username name : String) (d : Ledger)
    (hdata : getUserData db username = some d) (hjson : d.toJSON = d)
    (hname : name ≠ "")
    (hmatch : ∃ e ∈ f.get d, P.toLowerCase e.name = P.toLowerCase name) :
    (deleteEntry P f db username name).1 =
        .ok (some (f.set d ((f.get d).filter
          (fun e => decide (P.toLowerCase e.name ≠ P.toLowerCase name))))) ∧
      getUserData (deleteEntry P f db username name).2 username =
        some (f.set d ((f.get d).filter
          (fun e => decide (P.toLowerCase e.name ≠ P.toLowerCase name)))) ∧
      (∀ e ∈ (f.get d).filter
          (fun e => decide (P.toLowerCase e.name ≠ P.toLowerCase name)),
        P.toLowerCase e.name ≠ P.toLowerCase name) ∧
      (∀ e ∈ f.get d, P.toLowerCase e.name ≠ P.toLowerCase name →
        e ∈ (f.get d).filter
          (fun e => decide (P.toLowerCase e.name ≠ P.toLowerCase name))) ∧
      List.Sublist ((f.get d).filter
          (fun e => decide (P.toLowerCase e.name ≠ P.toLowerCase name))) (f.get d) := by
  have hlen : ((f.get d).filter
      (fun e => decide (P.toLowerCase e.name ≠ P.toLowerCase name))).length ≠
      (f.get d).length := by
    intro h
    obtain ⟨e, he, hn⟩ := hmatch
    have := List.filter_length_eq_length.mp h e he
    simp [hn] at this
  rw [deleteEntry_of_row P f db username name d hdata hname, if_neg hlen]
  obtain ⟨hres, hget⟩ := updateUserData_of_row (f.set d ((f.get d).filter
    (fun e => decide (P.toLowerCase e.name ≠ P.toLowerCase name)))) hdata
  rw [toJSON_set f d _ hjson, map_toJSON_filter _ _ (toJSON_get f d hjson)] at hres hget
  refine ⟨hres, hget, ?_, ?_, List.filter_sublist _⟩
  · intro e he
    simpa using (List.mem_filter.mp he).2
  · intro e he hn
    exact List.mem_filter.mpr ⟨he, by simpa using hn⟩

/-- C7. With a non-empty name, `deleteExpense` (field `expenses`) and `deleteIncome`
(field `incomes`) throw the not-found error exactly when no entry of the target list
equals the name ignoring case, and in that case the database, hence the stored
document with both of its lists, is left as it was. -/
theorem deleteEntry_not_found_iff (P : Platform) (f : Field) (db : Db)
    (username name : String) (d : Ledger)
    (hdata : getUserData db username = some d) (hname : name ≠ "") :
    ((deleteEntry P f db username name).1 = .error (.notFound f name) ↔
        ∀ e ∈ f.get d, P.toLowerCase e.name ≠ P.toLowerCase name) ∧
      ((∀ e ∈ f.get d, P.toLowerCase e.name ≠ P.toLowerCase name) →
        (deleteEntry P f db username name).2 = db ∧
          getUserData (deleteEntry P f db username name).2 username = some d) := by
  have hiff : ((f.get d).filter
      (fun e => decide (P.toLowerCase e.name ≠ P.toLowerCase name))).length =
      (f.get d).length ↔ ∀ e ∈ f.get d, P.toLowerCase e.name ≠ P.toLowerCase name := by
    rw [List.filter_length_eq_length]
    simp
  rw [deleteEntry_of_row P f db username name d hdata hname]
  constructor
  · constructor
    · intro h
      by_contra hno
      rw [if_neg (fun hl => hno (hiff.mp hl))] at h
      rw [(updateUserData_of_row _ hdata).1] at h
      exact absurd h (by simp)
    · intro hno
      rw [if_pos (hiff.mpr hno)]
  · intro hno
    rw [if_pos (hiff.mpr hno)]
    exact ⟨rfl, hdata⟩

/-! ## The mutators on concrete documents -/

/-- C1 (failing input). On the document `{expenses: [{name: "Rent", amount: 1200}]}`
the call `addExpense("alice", "rent", 1200)` returns and stores a document with a
second entry `{name: "rent", amount: 1200}`: the `return` under "same amount" only
leaves the `forEach` callback, the flag stays `false` and the push runs. `addIncome`
does the same. -/
theorem addExpense_same_amount_appends_duplicate :
    (addExpense node (aliceDb rentLedger) "alice" "rent" (.number (.fin 1200))).1 =
        .ok (some { expenses := [{ name := "Rent", amount := .number (.fin 1200) },
                                 { name := "rent", amount := .number (.fin 1200) }],
                    incomes := [] }) ∧
      getUserData (addExpense node (aliceDb rentLedger) "alice" "rent"
          (.number (.fin 1200))).2 "alice" =
        some { expenses := [{ name := "Rent", amount := .number (.fin 1200) },
                            { name := "rent", amount := .number (.fin 1200) }],
               incomes := [] } ∧
      (addIncome node (aliceDb salaryLedger) "alice" "SALARY" (.number (.fin 3000))).1 =
        .ok (some { expenses := [],
                    incomes := [{ name := "Salary", amount := .number (.fin 3000) },
                                { name := "SALARY", amount := .number (.fin 3000) }] }) := by
  decide

/-- Instance of `addEntry_updates_matching`: on the document with the expense `Rent` of
amount 1200, `addExpense("alice", "RENT", 1500)` sets the amount of `Rent` to 1500. -/
theorem addEntry_updates_matching_witness :
    (addEntry node .expenses (aliceDb rentLedger) "alice" "RENT" (.number (.fin 1500))).1 =
        .ok (some (Field.expenses.set rentLedger ((Field.expenses.get rentLedger).map (fun e =>
          if node.toLowerCase e.name = node.toLowerCase "RENT" then
            ({ name := e.name, amount := .number (.fin 1500) } : Entry)
          else e)))) ∧
      getUserData (addEntry node .expenses (aliceDb rentLedger) "alice" "RENT"
          (.number (.fin 1500))).2 "alice" =
        some (Field.expenses.set rentLedger ((Field.expenses.get rentLedger).map (fun e =>
          if node.toLowerCase e.name = node.toLowerCase "RENT" then
            ({ name := e.name, amount := .number (.fin 1500) } : Entry)
          else e))) ∧
      ((Field.expenses.get rentLedger).map (fun e =>
          if node.toLowerCase e.name = node.toLowerCase "RENT" then
            ({ name := e.name, amount := .number (.fin 1500) } : Entry)
          else e)).length = (Field.expenses.get rentLedger).length ∧
      ((Field.expenses.get rentLedger).map (fun e =>
          if node.toLowerCase e.name = node.toLowerCase "RENT" then
            ({ name := e.name, amount := .number (.fin 1500) } : Entry)
          else e)).map Entry.name = (Field.expenses.get rentLedger).map Entry.name :=
  addEntry_updates_matching node .expenses (aliceDb rentLedger) "alice" "RENT"
    (.number (.fin 1500)) 1500 rentLedger (by decide) (by decide) (by decide) (by decide)
    rfl (by decide) (by decide)
    ⟨{ name := "Rent", amount := .number (.fin 1200) }, by decide, by decide, by decide⟩

/-- C3 (failing input). From the empty document the two successful calls
`addExpense("alice", "Rent", 1200)` and `addExpense("alice", "rent", 1200)` leave a
stored `expenses` list with two entries whose names are equal ignoring case. -/
theorem addExpense_twice_breaks_name_uniqueness :
    (addExpense node (aliceDb emptyLedger) "alice" "Rent" (.number (.fin 1200))).1 =
        .ok (some rentLedger) ∧
      getUserData (addExpense node
          (addExpense node (aliceDb emptyLedger) "alice" "Rent" (.number (.fin 1200))).2
          "alice" "rent" (.number (.fin 1200))).2 "alice" =
        some { expenses := [{ name := "Rent", amount := .number (.fin 1200) },
                            { name := "rent", amount := .number (.fin 1200) }],
               incomes := [] } ∧
      node.toLowerCase "Rent" = node.toLowerCase "rent" := by
  decide

/-- Instance of `addEntry_appends_new`: on the document with the expense `Rent`,
`addExpense("alice", "Food", 40)` keeps `Rent` and stores `Food` after it. -/
theorem addEntry_appends_new_witness :
    (addEntry node .expenses (aliceDb rentLedger) "alice" "Food" (.number (.fin 40))).1 =
        .ok (some (Field.expenses.set rentLedger (Field.expenses.get rentLedger ++
          [{ name := "Food", amount := .number (.fin 40) }]))) ∧
      getUserData (addEntry node .expenses (aliceDb rentLedger) "alice" "Food"
          (.number (.fin 40))).2 "alice" =
        some (Field.expenses.set rentLedger (Field.expenses.get rentLedger ++
          [{ name := "Food", amount := .number (.fin 40) }])) ∧
      (Field.expenses.get rentLedger ++
          [({ name := "Food", amount := .number (.fin 40) } : Entry)]).length =
        (Field.expenses.get rentLedger).length + 1 :=
  addEntry_appends_new node .expenses (aliceDb rentLedger) "alice" "Food"
    (.number (.fin 40)) 40 rentLedger (by decide) (by decide) (by decide) (by decide)
    rfl (by decide) (by decide) (by decide)

/-- C5 (failing input). The amounts `null`, `true`, the empty string and `Infinity`
pass the check `isNaN(amount) || parseFloat(amount) <= 0`: the call returns, and the
stored document gains an entry whose amount is `null`. -/
theorem addExpense_accepts_non_numeric_amounts :
    (addExpense node (aliceDb emptyLedger) "alice" "Food" .null).1 =
        .ok (some { expenses := [{ name := "Food", amount := .null }], incomes := [] }) ∧
      getUserData (addExpense node (aliceDb emptyLedger) "alice" "Food" .null).2 "alice" =
        some { expenses := [{ name := "Food", amount := .null }], incomes := [] } ∧
      (addIncome node (aliceDb emptyLedger) "alice" "Gift" .null).1 =
        .ok (some { expenses := [], incomes := [{ name := "Gift", amount := .null }] }) ∧
      (addExpense node (aliceDb emptyLedger) "alice" "Food" (.bool true)).1 =
        .ok (some { expenses := [{ name := "Food", amount := .null }], incomes := [] }) ∧
      (addExpense node (aliceDb emptyLedger) "alice" "Food" (.string "")).1 =
        .ok (some { expenses := [{ name := "Food", amount := .null }], incomes := [] }) ∧
      (addExpense node (aliceDb emptyLedger) "alice" "Food" (.number .posInf)).1 =
        .ok (some { expenses := [{ name := "Food", amount := .null }], incomes := [] }) := by
  decide

/-- Instance of `deleteEntry_removes_matching`: `deleteExpense("alice", "rent")` on the
document with the expense `Rent`. -/
theorem deleteEntry_removes_matching_witness :
    (deleteEntry node .expenses (aliceDb rentLedger) "alice" "rent").1 =
        .ok (some (Field.expenses.set rentLedger ((Field.expenses.get rentLedger).filter
          (fun e => decide (node.toLowerCase e.name ≠ node.toLowerCase "rent"))))) ∧
      getUserData (deleteEntry node .expenses (aliceDb rentLedger) "alice" "rent").2 "alice" =
        some (Field.expenses.set rentLedger ((Field.expenses.get rentLedger).filter
          (fun e => decide (node.toLowerCase e.name ≠ node.toLowerCase "rent")))) ∧
      (∀ e ∈ (Field.expenses.get rentLedger).filter
          (fun e => decide (node.toLowerCase e.name ≠ node.toLowerCase "rent")),
        node.toLowerCase e.name ≠ node.toLowerCase "rent") ∧
      (∀ e ∈ Field.expenses.get rentLedger, node.toLowerCase e.name ≠ node.toLowerCase "rent" →
        e ∈ (Field.expenses.get rentLedger).filter
          (fun e => decide (node.toLowerCase e.name ≠ node.toLowerCase "rent"))) ∧
      List.Sublist ((Field.expenses.get rentLedger).filter
          (fun e => decide (node.toLowerCase e.name ≠ node.toLowerCase "rent")))
        (Field.expenses.get rentLedger) :=
  deleteEntry_removes_matching node .expenses (aliceDb rentLedger) "alice" "rent" rentLedger
    (by decide) (by decide) (by decide)
    ⟨{ name := "Rent", amount := .number (.fin 1200) }, by decide, by decide⟩

/-- Instance of `deleteEntry_not_found_iff`: `deleteExpense("alice", "food")` on the
document whose only expense is `Rent`. -/
theorem deleteEntry_not_found_iff_witness :
    ((deleteEntry node .expenses (aliceDb rentLedger) "alice" "food").1 =
          .error (.notFound .expenses "food") ↔
        ∀ e ∈ Field.expenses.get rentLedger,
          node.toLowerCase e.name ≠ node.toLowerCase "food") ∧
      ((∀ e ∈ Field.expenses.get rentLedger,
          node.toLowerCase e.name ≠ node.toLowerCase "food") →
        (deleteEntry node .expenses (aliceDb rentLedger) "alice" "food").2 =
            aliceDb rentLedger ∧
          getUserData (deleteEntry node .expenses (aliceDb rentLedger) "alice" "food").2
            "alice" = some rentLedger) :=
  deleteEntry_not_found_iff node .expenses (aliceDb rentLedger) "alice" "food" rentLedger
    (by decide) (by decide)

/-! ## The session middleware -/

theorem selectRefreshToken_pos (db : Db) (r : String)
    (hstore : ∃ row ∈ db.refreshtokens, row.token = r) :
    (selectRefreshToken db (some r)).length > 0 := by
  obtain ⟨row, hrow, htok⟩ := hstore
  apply List.length_pos_of_mem (a := row)
  exact List.mem_filter.mpr ⟨hrow, by simp [htok]⟩

theorem selectRefreshToken_absent (db : Db) (t : Option String)
    (habsent : ∀ row ∈ db.refreshtokens, some row.token ≠ t) :
    selectRefreshToken db t = [] := by
  apply List.filter_eq_nil_iff.mpr
  intro row hrow
  simpa using habsent row hrow

/-- C9 (counterexample). The access token `access-forged` fails verification with a
`JsonWebTokenError`, the refresh token `refresh-alice` is in the store and verifies,
and the middleware redirects to `/login`: the refresh token is consulted only after
a `TokenExpiredError`. -/
theorem authenticateRequest_invalid_access_not_refreshed :
    sampleJwt.verifyAccess "access-forged" = .error .JsonWebTokenError ∧
      (∃ row ∈ sessionDb.refreshtokens, row.token = "refresh-alice") ∧
      sampleJwt.verifyRefresh "refresh-alice" = .ok { username := "alice" } ∧
      authenticateRequest sampleJwt sessionDb
          { authToken := some "access-forged", refreshToken := some "refresh-alice" } =
        .redirect "/login" ∧
      authenticateRequest sampleJwt sessionDb
          { authToken := some "access-forged", refreshToken := some "refresh-alice" } ≠
        .next { username := "alice" } (some (generateAccessToken sampleJwt "alice")) := by
  decide

/-- C9 (amended). When verification of the access token fails with a
`TokenExpiredError`, the refresh token is found in the store and verifies, the
middleware sets a new access token minted for the username of the refresh token's
payload, binds that payload to the request and calls `next`. -/
theorem authenticateRequest_expired_access_refreshed (J : Jwt) (db : Db)
    (cookies : Cookies) (a r : String) (u : Payload)
    (hauth : cookies.authToken = some a) (ha : a ≠ "")
    (hexp : J.verifyAccess a = .error .TokenExpiredError)
    (hav : db.available = true)
    (href : cookies.refreshToken = some r)
    (hstore : ∃ row ∈ db.refreshtokens, row.token = r)
    (hver : J.verifyRefresh r = .ok u) :
    authenticateRequest J db cookies =
      .next u (some (generateAccessToken J u.username)) := by
  have hpos := selectRefreshToken_pos db r hstore
  unfold authenticateRequest
  simp only [hauth, ha, hexp, hav, href, hpos, verifyRefreshCookie, hver, if_true,
    if_false, Bool.not_true, Bool.false_eq_true]

/-- Instance of `authenticateRequest_expired_access_refreshed`: an expired access token
with the stored, verifying refresh token of `alice`. -/
theorem authenticateRequest_expired_access_refreshed_witness :
    authenticateRequest sampleJwt sessionDb
        { authToken := some "access-expired", refreshToken := some "refresh-alice" } =
      .next { username := "alice" }
        (some (generateAccessToken sampleJwt (Payload.mk "alice").username)) :=
  authenticateRequest_expired_access_refreshed sampleJwt sessionDb
    { authToken := some "access-expired", refreshToken := some "refresh-alice" }
    "access-expired" "refresh-alice" { username := "alice" } rfl (by decide) (by decide)
    rfl rfl ⟨{ token := "refresh-alice", username := "alice" }, by decide, rfl⟩ (by decide)

/-- An access token that is missing or fails verification, with a resolving query and
no row for the refresh token, is redirected. -/
theorem authenticateRequest_absent_aux (J : Jwt) (db : Db) (cookies : Cookies)
    (hinvalid : ∀ a, cookies.authToken = some a → ∃ e, J.verifyAccess a = .error e)
    (hav : db.available = true)
    (habsent : ∀ row ∈ db.refreshtokens, some row.token ≠ cookies.refreshToken) :
    authenticateRequest J db cookies = .redirect "/login" := by
  have hsel := selectRefreshToken_absent db cookies.refreshToken habsent
  unfold authenticateRequest
  cases hc : cookies.authToken with
  | none => rfl
  | some a =>
    obtain ⟨e, he⟩ := hinvalid a hc
    simp only [he, hav, hsel, List.length_nil, gt_iff_lt, lt_self_iff_false, if_false,
      Bool.not_true, Bool.false_eq_true, ite_self]

/-- C10. When the access token is not valid (the cookie is missing, or its
verification fails with any error) and no row of the refresh-token store holds the
refresh token of the request, the middleware redirects to `/login`: `next` is not
called and no access token is set, whatever the verification of the refresh token
would give. -/
theorem authenticateRequest_refresh_absent_redirects (J : Jwt) (db : Db)
    (cookies : Cookies)
    (hinvalid : ∀ a, cookies.authToken = some a → ∃ e, J.verifyAccess a = .error e)
    (hav : db.available = true)
    (habsent : ∀ row ∈ db.refreshtokens, some row.token ≠ cookies.refreshToken) :
    authenticateRequest J db cookies = .redirect "/login" :=
  authenticateRequest_absent_aux J db cookies hinvalid hav habsent

/-- Instance of `authenticateRequest_refresh_absent_redirects`: an expired access token
with a refresh token that verifies but has no row in the store. -/
theorem authenticateRequest_refresh_absent_redirects_witness :
    authenticateRequest sampleJwt (aliceDb emptyLedger)
        { authToken := some "access-expired", refreshToken := some "refresh-alice" } =
      .redirect "/login" :=
  authenticateRequest_refresh_absent_redirects sampleJwt (aliceDb emptyLedger)
    { authToken := some "access-expired", refreshToken := some "refresh-alice" }
    (by intro a h; cases h; exact ⟨.TokenExpiredError, by decide⟩) rfl
    (by intro row h; cases h)

/-! ## The size check -/

theorem getUserData_aliceDb (d : Ledger) : getUserData (aliceDb d) "alice" = some d := by
  rfl

theorem jsonStringBytes_letters (c : Char) (n : Nat) (hc : jsonCharBytes c = 1) :
    jsonStringBytes (letters c n) = n + 2 := by
  simp [jsonStringBytes, letters, List.map_replicate, List.sum_replicate, hc, Nat.add_comm]

theorem toLowerCase_letters (c : Char) (n : Nat) :
    node.toLowerCase (letters c n) = letters c.toLower n := by
  simp [node, letters, List.map_replicate]

theorem letters_ne (c c' : Char) (n m : Nat) (hc : c ≠ c') (hn : 0 < n) :
    letters c n ≠ letters c' m := by
  intro h
  have h' : List.replicate n c = List.replicate m c' := congrArg String.data h
  have hmem : c ∈ List.replicate m c' := by
    rw [← h']
    exact List.mem_replicate.mpr ⟨Nat.pos_iff_ne_zero.mp hn, rfl⟩
  exact hc (List.mem_replicate.mp hmem).2

theorem jsonLedgerBytes_elevenExpenses (n : Nat) :
    jsonLedgerBytes node (elevenExpenses n) = 11 * n + 280 := by
  have h1 : (node.numberToString 1).utf8ByteSize = 1 := by decide
  simp only [jsonLedgerBytes, elevenExpenses, List.map_cons, List.map_nil, jsonElemsBytes,
    jsonEntryBytes, jsonAmountBytes, h1]
  rw [jsonStringBytes_letters 'a' _ (by decide), jsonStringBytes_letters 'b' _ (by decide),
    jsonStringBytes_letters 'c' _ (by decide), jsonStringBytes_letters 'd' _ (by decide),
    jsonStringBytes_letters 'e' _ (by decide), jsonStringBytes_letters 'f' _ (by decide),
    jsonStringBytes_letters 'g' _ (by decide), jsonStringBytes_letters 'h' _ (by decide),
    jsonStringBytes_letters 'i' _ (by decide), jsonStringBytes_letters 'j' _ (by decide),
    jsonStringBytes_letters 'k' _ (by decide)]
  omega

theorem jsonLedgerBytes_twelveExpenses (n m : Nat) :
    jsonLedgerBytes node (twelveExpenses n m) = 11 * n + m + 303 := by
  have h1 : (node.numberToString 1).utf8ByteSize = 1 := by decide
  simp only [jsonLedgerBytes, twelveExpenses, elevenExpenses, List.map_cons, List.map_nil,
    List.cons_append, List.nil_append, jsonElemsBytes, jsonEntryBytes, jsonAmountBytes, h1]
  rw [jsonStringBytes_letters 'a' _ (by decide), jsonStringBytes_letters 'b' _ (by decide),
    jsonStringBytes_letters 'c' _ (by decide), jsonStringBytes_letters 'd' _ (by decide),
    jsonStringBytes_letters 'e' _ (by decide), jsonStringBytes_letters 'f' _ (by decide),
    jsonStringBytes_letters 'g' _ (by decide), jsonStringBytes_letters 'h' _ (by decide),
    jsonStringBytes_letters 'i' _ (by decide), jsonStringBytes_letters 'j' _ (by decide),
    jsonStringBytes_letters 'k' _ (by decide), jsonStringBytes_letters 'l' _ (by decide)]
  omega

theorem jsonEntryBytes_letters (c : Char) (m : Nat) (hc : jsonCharBytes c = 1) :
    jsonEntryBytes node { name := letters c m, amount := .number (.fin 1) } = m + 22 := by
  have h1 : (node.numberToString 1).utf8ByteSize = 1 := by decide
  simp only [jsonEntryBytes, jsonAmountBytes, h1, jsonStringBytes_letters c m hc]
  omega

theorem toLowerCase_letters_ne (c c' : Char) (n m : Nat) (hc : c.toLower ≠ c'.toLower)
    (hn : 0 < n) : node.toLowerCase (letters c n) ≠ node.toLowerCase (letters c' m) := by
  rw [toLowerCase_letters, toLowerCase_letters]
  exact letters_ne _ _ n m hc hn

/-- Adding a twelfth expense to `elevenExpenses n` when the size check passes. -/
theorem addExpense_elevenExpenses (n m : Nat) (hn : 0 < n) (hm : 0 < m)
    (hsize : 11 * n + 280 + (m + 22) ≤ dataSizeLimit) :
    (addExpense node (aliceDb (elevenExpenses n)) "alice" (letters 'l' m)
        (.number (.fin 1))).1 = .ok (some (twelveExpenses n m)) ∧
      getUserData (addExpense node (aliceDb (elevenExpenses n)) "alice" (letters 'l' m)
        (.number (.fin 1))).2 "alice" = some (twelveExpenses n m) := by
  have hname : letters 'l' m ≠ "" := by
    intro h
    have h' : List.replicate m 'l' = [] := congrArg String.data h
    cases m with
    | zero => exact absurd hm (by decide)
    | succ k => simp [List.replicate_succ] at h'
  have hjson : (elevenExpenses n).toJSON = elevenExpenses n := by
    simp [elevenExpenses, Ledger.toJSON, Entry.toJSON, Amount.toJSON]
  have hno : ∀ e ∈ Field.expenses.get (elevenExpenses n),
      node.toLowerCase e.name ≠ node.toLowerCase (letters 'l' m) := by
    intro e he
    simp only [Field.get, elevenExpenses, List.map_cons, List.map_nil, List.mem_cons,
      List.mem_nil_iff, or_false] at he
    rcases he with h | h | h | h | h | h | h | h | h | h | h <;> subst h <;>
      exact toLowerCase_letters_ne _ _ n m (by decide) hn
  exact addEntry_push node .expenses (aliceDb (elevenExpenses n)) "alice"
    (letters 'l' m) (.number (.fin 1)) 1 (elevenExpenses n) (getUserData_aliceDb _) hjson
    hname (by decide) rfl (by decide)
    (by rw [jsonLedgerBytes_elevenExpenses, jsonEntryBytes_letters 'l' m (by decide)]
        exact hsize) hno

/-- C8 (failing input). The stored document `largeLedger` serialises to 961196 bytes,
within the cap of 1048576. Adding an expense whose name has 87358 characters passes
the size check (961196 + 87380 = 1048576) and succeeds, and the document that is
stored serialises to 1048577 bytes: the comma that separates the new entry from the
previous one is not counted by the check. -/
theorem addExpense_stores_document_over_limit :
    jsonLedgerBytes node largeLedger ≤ dataSizeLimit ∧
      (addExpense node (aliceDb largeLedger) "alice" (letters 'l' 87358)
        (.number (.fin 1))).1 = .ok (some largerLedger) ∧
      getUserData (addExpense node (aliceDb largeLedger) "alice" (letters 'l' 87358)
        (.number (.fin 1))).2 "alice" = some largerLedger ∧
      jsonLedgerBytes node largerLedger = dataSizeLimit + 1 := by
  have h := addExpense_elevenExpenses 87356 87358 (by decide) (by decide) (by decide)
  refine ⟨?_, h.1, h.2, ?_⟩
  · exact le_of_eq_of_le (jsonLedgerBytes_elevenExpenses 87356) (by decide)
  · exact (jsonLedgerBytes_twelveExpenses 87356 87358).trans (by decide)

/-! ## The session middleware and the login page -/

/-- C11 (failing input). With an expired access token and the refresh token
`refresh-old`, which has a row in the store and fails verification, the synchronous
`jwt.verify` throws inside the asynchronous callback: the middleware neither
redirects nor calls `next`. The handler of `GET /login` wraps the same verification
in `try`/`catch` and serves the login page on the same request. -/
theorem authenticateRequest_stored_refresh_invalid_throws :
    sampleJwt.verifyAccess "access-expired" = .error .TokenExpiredError ∧
      (∃ row ∈ staleSessionDb.refreshtokens, row.token = "refresh-old") ∧
      sampleJwt.verifyRefresh "refresh-old" = .error .JsonWebTokenError ∧
      authenticateRequest sampleJwt staleSessionDb
          { authToken := some "access-expired", refreshToken := some "refresh-old" } =
        .verifyThrew .JsonWebTokenError ∧
      authenticateRequest sampleJwt staleSessionDb
          { authToken := some "access-expired", refreshToken := some "refresh-old" } ≠
        .redirect "/login" ∧
      getLogin sampleJwt staleSessionDb
          { authToken := some "access-expired", refreshToken := some "refresh-old" } =
        .sendFile "/routes/login/login.html" := by
  decide

/-- C12. Without an access-token cookie (the cookie is missing, or its value is
empty) the middleware redirects to `/login`: `next` is not called and no user is
bound, whatever the refresh token, the token library and the store are. -/
theorem authenticateRequest_no_access_cookie_redirects (J : Jwt) (db : Db)
    (cookies : Cookies)
    (hnone : cookies.authToken = none ∨ cookies.authToken = some "") :
    authenticateRequest J db cookies = .redirect "/login" := by
  unfold authenticateRequest
  rcases hnone with h | h <;> simp [h]

/-- Instance of `authenticateRequest_no_access_cookie_redirects`: no access-token
cookie, with the stored and verifying refresh token of `alice`. -/
theorem authenticateRequest_no_access_cookie_redirects_witness :
    authenticateRequest sampleJwt sessionDb
        { authToken := none, refreshToken := some "refresh-alice" } =
      .redirect "/login" :=
  authenticateRequest_no_access_cookie_redirects sampleJwt sessionDb
    { authToken := none, refreshToken := some "refresh-alice" } (Or.inl rfl)

/-- C20 (failing input). With both cookies present, an expired access token and the
refresh token `refresh-alice`, which verifies and has no row in the store, `GET /login`
redirects to `/dashboard`: after the `try` block control falls through to the final
redirect. The middleware of `/dashboard` redirects the same request to `/login`. -/
theorem getLogin_refresh_absent_redirects_to_dashboard :
    sampleJwt.verifyAccess "access-expired" = .error .TokenExpiredError ∧
      sampleJwt.verifyRefresh "refresh-alice" = .ok { username := "alice" } ∧
      selectRefreshToken (aliceDb emptyLedger) (some "refresh-alice") = [] ∧
      getLogin sampleJwt (aliceDb emptyLedger)
          { authToken := some "access-expired", refreshToken := some "refresh-alice" } =
        .redirect "/dashboard" ∧
      authenticateRequest sampleJwt (aliceDb emptyLedger)
          { authToken := some "access-expired", refreshToken := some "refresh-alice" } =
        .redirect "/login" := by
  decide

/-! ## The mutating routes -/

/-- C16. Each of the four mutating routes answers with code 500 and the body
`{status: 1, message}` carrying the message of the error when its mutator throws, and
with `{status: 0, data}` carrying the returned document when it returns; the
database is the one the mutator leaves. The handlers are total: every outcome of the
mutator is turned into a response. -/
theorem mutating_routes_reply (P : Platform) (db : Db) (user : Payload)
    (name : Option String) (amount : JSValue) :
    (postAddExpense P db user name amount =
        match addExpense P db user.username (name.getD "") amount with
        | (.ok d, db') => (.json 200 (.data 0 d), db')
        | (.error e, db') => (.json 500 (.message 1 e.message), db')) ∧
      (postAddIncome P db user name amount =
        match addIncome P db user.username (name.getD "") amount with
        | (.ok d, db') => (.json 200 (.data 0 d), db')
        | (.error e, db') => (.json 500 (.message 1 e.message), db')) ∧
      (deleteDeleteExpense P db user name =
        match deleteExpense P db user.username (name.getD "") with
        | (.ok d, db') => (.json 200 (.data 0 d), db')
        | (.error e, db') => (.json 500 (.message 1 e.message), db')) ∧
      (deleteDeleteIncome P db user name =
        match deleteIncome P db user.username (name.getD "") with
        | (.ok d, db') => (.json 200 (.data 0 d), db')
        | (.error e, db') => (.json 500 (.message 1 e.message), db')) :=
  ⟨rfl, rfl, rfl, rfl⟩

/-! ## validation.js -/

theorem char_le_iff (a b : Char) : a ≤ b ↔ a.toNat ≤ b.toNat := Iff.rfl

theorem char_eq_iff (a b : Char) : a = b ↔ a.toNat = b.toNat := by
  constructor
  · intro h
    rw [h]
  · intro h
    rw [← Char.ofNat_toNat a, ← Char.ofNat_toNat b, h]

theorem isUsernameChar_iff (c : Char) :
    isUsernameChar c = true ↔
      (97 ≤ c.toNat ∧ c.toNat ≤ 122) ∨ (65 ≤ c.toNat ∧ c.toNat ≤ 90) ∨
        (48 ≤ c.toNat ∧ c.toNat ≤ 57) ∨ c.toNat = 95 := by
  simp only [isUsernameChar, Bool.or_eq_true, Bool.and_eq_true, decide_eq_true_eq,
    beq_iff_eq, char_le_iff, char_eq_iff c '_']
  have h1 : 'a'.toNat = 97 := rfl
  have h2 : 'z'.toNat = 122 := rfl
  have h3 : 'A'.toNat = 65 := rfl
  have h4 : 'Z'.toNat = 90 := rfl
  have h5 : '0'.toNat = 48 := rfl
  have h6 : '9'.toNat = 57 := rfl
  have h7 : '_'.toNat = 95 := rfl
  rw [h1, h2, h3, h4, h5, h6, h7]
  tauto

theorem string_ne_empty_iff (s : String) : s ≠ "" ↔ s.data ≠ [] := by
  constructor
  · intro h hd
    exact h (String.ext hd)
  · intro h hs
    exact h (by rw [hs])

theorem usernameIsValid_iff (s : String) :
    usernameIsValid s = true ↔ s ≠ "" ∧ ∀ c ∈ s.data, isUsernameChar c = true := by
  rw [string_ne_empty_iff]
  simp [usernameIsValid, List.isEmpty_iff]

/-- C17. The function `validateUsername` returns without throwing exactly for the
non-empty strings all of whose characters are ASCII letters, ASCII digits or the
underscore; for every other string it throws the error with the message `Username
can only contain letters, numbers, and underscores`, in particular for the empty
string and for a valid name followed by a line feed. -/
theorem validateUsername_accepts_iff (username : String) :
    (validateUsername username = .ok () ↔
        username ≠ "" ∧ ∀ c ∈ username.data,
          (97 ≤ c.toNat ∧ c.toNat ≤ 122) ∨ (65 ≤ c.toNat ∧ c.toNat ≤ 90) ∨
            (48 ≤ c.toNat ∧ c.toNat ≤ 57) ∨ c.toNat = 95) ∧
      (validateUsername username = .ok () ∨
        validateUsername username = .error .usernameInvalid) ∧
      Err.usernameInvalid.message =
        "Username can only contain letters, numbers, and underscores" ∧
      validateUsername "" = .error .usernameInvalid ∧
      validateUsername "alice\n" = .error .usernameInvalid := by
  refine ⟨?_, ?_, rfl, by decide, by decide⟩
  · unfold validateUsername
    cases h : usernameIsValid username
    · simp only [Bool.false_eq_true, if_false]
      constructor
      · intro hc
        exact absurd hc (by simp)
      intro hc
      have := (usernameIsValid_iff username).mpr
        ⟨hc.1, fun c hm => (isUsernameChar_iff c).mpr (hc.2 c hm)⟩
      rw [h] at this
      exact absurd this (by decide)
    · simp only [if_true, true_iff]
      obtain ⟨h1, h2⟩ := (usernameIsValid_iff username).mp h
      exact ⟨h1, fun c hm => (isUsernameChar_iff c).mp (h2 c hm)⟩
  · unfold validateUsername
    cases usernameIsValid username <;> simp

theorem isSpecialChar_iff (c : Char) :
    isSpecialChar c = true ↔
      c ∈ ['!', '@', '#', '$', '%', '^', '&', '*', '(', ')', ',', '.', '?', '"', ':',
        '{', '}', '|', '<', '>'] := by
  simp [isSpecialChar]

/-- C18. The function `validatePassword` accepts a string exactly when its length
(in UTF-16 code units, the property `length`) is at least 8 and it holds an uppercase
ASCII letter, a lowercase ASCII letter, a digit and a character of the special set; a
shorter string fails with the length error whatever classes it holds, and a string of
length at least 8 that lacks a class fails with the complexity error. -/
theorem validatePassword_accepts_iff (password : String) :
    (validatePassword password = .ok () ↔
        8 ≤ jsLength password ∧
          (∃ c ∈ password.data, 65 ≤ c.toNat ∧ c.toNat ≤ 90) ∧
          (∃ c ∈ password.data, 97 ≤ c.toNat ∧ c.toNat ≤ 122) ∧
          (∃ c ∈ password.data, 48 ≤ c.toNat ∧ c.toNat ≤ 57) ∧
          (∃ c ∈ password.data,
            c ∈ ['!', '@', '#', '$', '%', '^', '&', '*', '(', ')', ',', '.', '?', '"', ':',
              '{', '}', '|', '<', '>'])) ∧
      (jsLength password < 8 → validatePassword password = .error .passwordTooShort) ∧
      (8 ≤ jsLength password →
        ¬ ((∃ c ∈ password.data, 65 ≤ c.toNat ∧ c.toNat ≤ 90) ∧
          (∃ c ∈ password.data, 97 ≤ c.toNat ∧ c.toNat ≤ 122) ∧
          (∃ c ∈ password.data, 48 ≤ c.toNat ∧ c.toNat ≤ 57) ∧
          (∃ c ∈ password.data,
            c ∈ ['!', '@', '#', '$', '%', '^', '&', '*', '(', ')', ',', '.', '?', '"', ':',
              '{', '}', '|', '<', '>'])) →
        validatePassword password = .error .passwordTooWeak) ∧
      Err.passwordTooShort.message = "Password must be at least 8 characters long" ∧
      Err.passwordTooWeak.message =
        "Password must include uppercase, lowercase, number, and special character" := by
  have hU : (password.data.any (fun c => 'A' ≤ c && c ≤ 'Z')) = true ↔
      ∃ c ∈ password.data, 65 ≤ c.toNat ∧ c.toNat ≤ 90 := by
    simp only [List.any_eq_true, Bool.and_eq_true, decide_eq_true_eq, char_le_iff]
    rfl
  have hL : (password.data.any (fun c => 'a' ≤ c && c ≤ 'z')) = true ↔
      ∃ c ∈ password.data, 97 ≤ c.toNat ∧ c.toNat ≤ 122 := by
    simp only [List.any_eq_true, Bool.and_eq_true, decide_eq_true_eq, char_le_iff]
    rfl
  have hN : (password.data.any (fun c => '0' ≤ c && c ≤ '9')) = true ↔
      ∃ c ∈ password.data, 48 ≤ c.toNat ∧ c.toNat ≤ 57 := by
    simp only [List.any_eq_true, Bool.and_eq_true, decide_eq_true_eq, char_le_iff]
    rfl
  have hS : (password.data.any isSpecialChar) = true ↔
      ∃ c ∈ password.data,
        c ∈ ['!', '@', '#', '$', '%', '^', '&', '*', '(', ')', ',', '.', '?', '"', ':',
          '{', '}', '|', '<', '>'] := by
    simp only [List.any_eq_true, isSpecialChar_iff]
  rw [← hU, ← hL, ← hN, ← hS]
  unfold validatePassword
  refine ⟨?_, ?_, ?_, rfl, rfl⟩
  · by_cases hlen : jsLength password < 8
    · simp only [hlen, if_true]
      constructor
      · intro h
        exact absurd h (by simp)
      · intro h
        omega
    · simp only [hlen, if_false]
      cases password.data.any (fun c => 'A' ≤ c && c ≤ 'Z') <;>
        cases password.data.any (fun c => 'a' ≤ c && c ≤ 'z') <;>
        cases password.data.any (fun c => '0' ≤ c && c ≤ '9') <;>
        cases password.data.any isSpecialChar <;> simp [Nat.not_lt.mp hlen]
  · intro hlen
    simp only [hlen, if_true]
  · intro hlen hnot
    have hlen' : ¬ jsLength password < 8 := by omega
    simp only [hlen', if_false]
    cases hu : password.data.any (fun c => 'A' ≤ c && c ≤ 'Z') <;>
      cases hl : password.data.any (fun c => 'a' ≤ c && c ≤ 'z') <;>
      cases hn : password.data.any (fun c => '0' ≤ c && c ≤ '9') <;>
      cases hs : password.data.any isSpecialChar <;> simp_all

/-! ## Login and logout -/

/-- A login that answers `Login successful.` went through every check: the store it
leaves is the old one without the rows of the user, followed by the new row. -/
theorem postLogin_success (J : Jwt) (B : Bcrypt) (db : Db) (username password : String)
    (hok : (postLogin J B db username password).1.response =
      .json 200 (.message 0 "Login successful.")) :
    (postLogin J B db username password).2 =
      { db with refreshtokens :=
          db.refreshtokens.filter (fun r => decide (r.username ≠ sqlLower username)) ++
            [{ token := generateRefreshToken J username, username := sqlLower username }] } := by
  cases hv : validateUsername username with
  | error e => simp [postLogin, hv] at hok
  | ok u =>
    cases hp : validatePassword password with
    | error e => simp [postLogin, hv, hp] at hok
    | ok u' =>
      cases hav : db.available with
      | false => simp [postLogin, hv, hp, hav] at hok
      | true =>
        cases hrow : (db.users.filter (fun r => r.username = sqlLower username)).head? with
        | none => simp [postLogin, hv, hp, hav, hrow] at hok
        | some user =>
          cases hpw : B.compare password user.password with
          | false => simp [postLogin, hv, hp, hav, hrow, hpw] at hok
          | true => simp [postLogin, hv, hp, hav, hrow, hpw, deleteRefreshTokens]

theorem filter_append_singleton_same (rows : List TokenRow) (key : String) (row : TokenRow)
    (hrow : row.username = key) :
    (rows.filter (fun r => decide (r.username ≠ key)) ++ [row]).filter
        (fun r => decide (r.username = key)) = [row] := by
  rw [List.filter_append]
  have h1 : (rows.filter (fun r => decide (r.username ≠ key))).filter
      (fun r => decide (r.username = key)) = [] := by
    apply List.filter_eq_nil_iff.mpr
    intro r hr
    have := (List.mem_filter.mp hr).2
    simpa using this
  rw [h1]
  simp [hrow]

theorem filter_append_singleton_other (rows : List TokenRow) (key : String) (row : TokenRow)
    (hrow : row.username = key) :
    (rows.filter (fun r => decide (r.username ≠ key)) ++ [row]).filter
        (fun r => decide (r.username ≠ key)) =
      rows.filter (fun r => decide (r.username ≠ key)) := by
  rw [List.filter_append, List.filter_filter]
  simp [hrow]

/-- C13 (counterexample). In `reloginDb` the token `refresh-alice` is stored for
`alice` before the login. The login of `alice` succeeds and signs the same token, so
after it the token stored before still has a row, is found by the store lookup, and
the middleware rotates an expired access token with it. -/
theorem postLogin_prior_token_still_found :
    ({ token := "refresh-alice", username := "alice" } : TokenRow) ∈ reloginDb.refreshtokens ∧
      (postLogin sampleJwt sampleBcrypt reloginDb "alice" "Passw0rd!").1.response =
        .json 200 (.message 0 "Login successful.") ∧
      generateRefreshToken sampleJwt "alice" = "refresh-alice" ∧
      selectRefreshToken (postLogin sampleJwt sampleBcrypt reloginDb "alice" "Passw0rd!").2
          (some "refresh-alice") =
        [{ token := "refresh-alice", username := "alice" }] ∧
      authenticateRequest sampleJwt
          (postLogin sampleJwt sampleBcrypt reloginDb "alice" "Passw0rd!").2
          { authToken := some "access-expired", refreshToken := some "refresh-alice" } =
        .next { username := "alice" } (some "access-alice") := by
  decide

/-- C13 (amended). After a successful `POST /login` for `username` the refresh-token store
holds exactly one row whose username is the lower-cased username, the row of the
refresh token just issued, and the rows of the other users are the ones it held
before, in order. Hence a token other than the one just issued that was stored only
in rows of that user is no longer found by the store lookup of the middleware. -/
theorem postLogin_single_refresh_token (J : Jwt) (B : Bcrypt) (db : Db)
    (username password : String)
    (hok : (postLogin J B db username password).1.response =
      .json 200 (.message 0 "Login successful.")) :
    (postLogin J B db username password).2.refreshtokens.filter
        (fun r => decide (r.username = sqlLower username)) =
        [{ token := generateRefreshToken J username, username := sqlLower username }] ∧
      (postLogin J B db username password).2.refreshtokens.filter
        (fun r => decide (r.username ≠ sqlLower username)) =
        db.refreshtokens.filter (fun r => decide (r.username ≠ sqlLower username)) ∧
      (postLogin J B db username password).2.users = db.users ∧
      (∀ t, t ≠ generateRefreshToken J username →
        (∀ r ∈ db.refreshtokens, r.token = t → r.username = sqlLower username) →
        selectRefreshToken (postLogin J B db username password).2 (some t) = []) := by
  rw [postLogin_success J B db username password hok]
  refine ⟨filter_append_singleton_same _ _ _ rfl, filter_append_singleton_other _ _ _ rfl,
    rfl, ?_⟩
  intro t hne hown
  apply List.filter_eq_nil_iff.mpr
  intro r hr
  simp only [List.mem_append, List.mem_filter, List.mem_singleton, decide_eq_true_eq] at hr
  simp only [decide_eq_true_eq, Option.some.injEq]
  intro hrt
  rcases hr with ⟨hmem, hother⟩ | hnew
  · exact hother (hown r hmem hrt)
  · rw [hnew] at hrt
    exact hne hrt.symm

/-- Instance of `postLogin_single_refresh_token`: `Alice` logs in with her password
on a store that holds two earlier tokens of `alice` and one of `bob`. -/
theorem postLogin_single_refresh_token_witness :
    (postLogin sampleJwt sampleBcrypt loginDb "Alice" "Passw0rd!").2.refreshtokens.filter
        (fun r => decide (r.username = sqlLower "Alice")) =
        [{ token := generateRefreshToken sampleJwt "Alice", username := sqlLower "Alice" }] ∧
      (postLogin sampleJwt sampleBcrypt loginDb "Alice" "Passw0rd!").2.refreshtokens.filter
        (fun r => decide (r.username ≠ sqlLower "Alice")) =
        loginDb.refreshtokens.filter (fun r => decide (r.username ≠ sqlLower "Alice")) ∧
      (postLogin sampleJwt sampleBcrypt loginDb "Alice" "Passw0rd!").2.users = loginDb.users ∧
      (∀ t, t ≠ generateRefreshToken sampleJwt "Alice" →
        (∀ r ∈ loginDb.refreshtokens, r.token = t → r.username = sqlLower "Alice") →
        selectRefreshToken (postLogin sampleJwt sampleBcrypt loginDb "Alice" "Passw0rd!").2
          (some t) = []) :=
  postLogin_single_refresh_token sampleJwt sampleBcrypt loginDb "Alice" "Passw0rd!"
    (by decide)

/-- C14. After an authenticated `GET /logout` whose query resolves, the cookies are
cleared, the response is the redirect to `/login`, the refresh-token store holds the
rows of the other users as before and no row of the user; a refresh token that was
stored only in rows of that user is then redirected to `/login` by the middleware
when the access token has expired. -/
theorem getLogout_revokes_refresh_tokens (J : Jwt) (db : Db) (cookies : Cookies)
    (user : Payload) (authCookie : Option String)
    (hauth : authenticateRequest J db cookies = .next user authCookie)
    (hav : db.available = true) :
    (getLogout J db cookies).1 =
        some { cookies := authCookieOps authCookie ++
                 [.clear "authToken", .clear "refreshToken"]
               response := .redirect "/login" } ∧
      (getLogout J db cookies).2.refreshtokens =
        db.refreshtokens.filter (fun r => decide (r.username ≠ sqlLower user.username)) ∧
      (∀ r ∈ (getLogout J db cookies).2.refreshtokens, r.username ≠ sqlLower user.username) ∧
      (getLogout J db cookies).2.users = db.users ∧
      (∀ a t, J.verifyAccess a = .error .TokenExpiredError →
        (∀ r ∈ db.refreshtokens, r.token = t → r.username = sqlLower user.username) →
        authenticateRequest J (getLogout J db cookies).2
          { authToken := some a, refreshToken := some t } = .redirect "/login") := by
  have hlog : getLogout J db cookies =
      (some { cookies := authCookieOps authCookie ++
                [.clear "authToken", .clear "refreshToken"]
              response := .redirect "/login" }, deleteRefreshTokens db user.username) := by
    unfold getLogout
    rw [hauth]
    simp only [hav, Bool.not_true, Bool.false_eq_true, if_false]
  rw [hlog]
  refine ⟨rfl, rfl, ?_, rfl, ?_⟩
  · intro r hr
    simpa [deleteRefreshTokens] using (List.mem_filter.mp hr).2
  · intro a t hexp hown
    apply authenticateRequest_absent_aux J _ _
    · intro a' ha'
      simp only [Option.some.injEq] at ha'
      subst ha'
      exact ⟨_, hexp⟩
    · exact hav
    · intro row hrow hrt
      simp only [deleteRefreshTokens, List.mem_filter, decide_eq_true_eq] at hrow
      simp only [Option.some.injEq] at hrt
      exact hrow.2 (hown row hrow.1 hrt)

/-- Instance of `getLogout_revokes_refresh_tokens`: `alice` logs out with a valid
access token. -/
theorem getLogout_revokes_refresh_tokens_witness :
    (getLogout sampleJwt sessionDb
        { authToken := some "access-alice", refreshToken := some "refresh-alice" }).1 =
        some { cookies := authCookieOps none ++
                 [.clear "authToken", .clear "refreshToken"]
               response := .redirect "/login" } ∧
      (getLogout sampleJwt sessionDb
        { authToken := some "access-alice", refreshToken := some "refresh-alice" }).2.refreshtokens =
        sessionDb.refreshtokens.filter
          (fun r => decide (r.username ≠ sqlLower (Payload.mk "alice").username)) ∧
      (∀ r ∈ (getLogout sampleJwt sessionDb
        { authToken := some "access-alice", refreshToken := some "refresh-alice" }).2.refreshtokens,
        r.username ≠ sqlLower (Payload.mk "alice").username) ∧
      (getLogout sampleJwt sessionDb
        { authToken := some "access-alice", refreshToken := some "refresh-alice" }).2.users =
        sessionDb.users ∧
      (∀ a t, sampleJwt.verifyAccess a = .error .TokenExpiredError →
        (∀ r ∈ sessionDb.refreshtokens, r.token = t →
          r.username = sqlLower (Payload.mk "alice").username) →
        authenticateRequest sampleJwt (getLogout sampleJwt sessionDb
          { authToken := some "access-alice", refreshToken := some "refresh-alice" }).2
          { authToken := some a, refreshToken := some t } = .redirect "/login") :=
  getLogout_revokes_refresh_tokens sampleJwt sessionDb
    { authToken := some "access-alice", refreshToken := some "refresh-alice" }
    { username := "alice" } none (by decide) rfl

/-! ## Usernames are compared in lower case -/

theorem toLower_toNat (c : Char) :
    c.toLower.toNat = if 65 ≤ c.toNat ∧ c.toNat ≤ 90 then c.toNat + 32 else c.toNat := by
  unfold Char.toLower
  simp only [ge_iff_le]
  split_ifs with h
  · obtain ⟨h1, h2⟩ := h
    generalize c.toNat = n at h1 h2
    interval_cases n <;> rfl
  · rfl

theorem isUsernameChar_toLower (c : Char) : isUsernameChar c.toLower = isUsernameChar c := by
  rw [Bool.eq_iff_iff, isUsernameChar_iff, isUsernameChar_iff, toLower_toNat]
  split_ifs with h <;> omega

theorem usernameIsValid_sqlLower (s : String) :
    usernameIsValid (sqlLower s) = usernameIsValid s := by
  simp only [usernameIsValid, sqlLower, List.all_map, Function.comp_def,
    isUsernameChar_toLower]
  cases s.data <;> rfl

theorem sqlLower_eq_empty (s : String) : sqlLower s = "" ↔ s = "" := by
  constructor
  · intro h
    have h' : s.data.map Char.toLower = [] := congrArg String.data h
    exact String.ext (List.map_eq_nil_iff.mp h')
  · intro h
    rw [h]
    rfl

theorem getUserData_eq (db : Db) (username : String)
    (h0 : username ≠ "") (hv : usernameIsValid username = true) (hav : db.available = true) :
    getUserData db username =
      ((db.users.filter (fun r => r.username = sqlLower username)).head?).map UserRow.data := by
  simp only [getUserData, h0, hv, hav, if_false, Bool.not_true, Bool.false_eq_true]
  cases db.users.filter (fun r => r.username = sqlLower username) <;> rfl

/-- Without user data `addEntry` throws and leaves the database as it was. -/
theorem addEntry_without_data (P : Platform) (f : Field) (db : Db) (username name : String)
    (amount : JSValue) (hnone : getUserData db username = none) :
    (∃ e, (addEntry P f db username name amount).1 = .error e) ∧
      (addEntry P f db username name amount).2 = db := by
  unfold addEntry
  simp only [hnone]
  split_ifs <;> exact ⟨⟨_, rfl⟩, rfl⟩

/-- Without user data `deleteEntry` throws and leaves the database as it was. -/
theorem deleteEntry_without_data (P : Platform) (f : Field) (db : Db)
    (username name : String) (hnone : getUserData db username = none) :
    (∃ e, (deleteEntry P f db username name).1 = .error e) ∧
      (deleteEntry P f db username name).2 = db := by
  unfold deleteEntry
  simp only [hnone]
  split_ifs <;> exact ⟨⟨_, rfl⟩, rfl⟩

theorem updateUserData_shape {db : Db} {username : String} {d : Ledger} (data : Ledger)
    (hdata : getUserData db username = some d) :
    updateUserData db username data =
      (.ok (some data.toJSON),
        { db with users := db.users.map (fun r =>
            if r.username = sqlLower username then { r with data := data.toJSON } else r) }) := by
  obtain ⟨-, -, h3, r, rs, hr, -⟩ := getUserData_some hdata
  simp [updateUserData, h3, hr]

/-- A returning `addEntry` has written the returned document to the rows keyed by the
lower-cased username and to no other row. -/
theorem addEntry_ok_db (P : Platform) (f : Field) (db : Db) (username name : String)
    (amount : JSValue) (r : Option Ledger)
    (hok : (addEntry P f db username name amount).1 = .ok r) :
    ∃ d', r = some d' ∧
      (addEntry P f db username name amount).2 =
        { db with users := db.users.map (fun row =>
            if row.username = sqlLower username then { row with data := d' } else row) } := by
  cases hdata : getUserData db username with
  | none =>
    obtain ⟨⟨e, he⟩, -⟩ := addEntry_without_data P f db username name amount hdata
    rw [he] at hok
    exact absurd hok (by simp)
  | some d =>
    obtain ⟨h1, h2, -, -⟩ := getUserData_some hdata
    by_cases hn : name = ""
    · simp [addEntry, h1, h2, hn] at hok
    · cases hc : (isNaN P amount || (parseFloat P amount).leZero) with
      | true => simp [addEntry, h1, h2, hn, hc] at hok
      | false =>
        by_cases hs : jsonLedgerBytes P d +
            jsonEntryBytes P { name := name, amount := .number (parseFloat P amount) } ≤
              dataSizeLimit
        · rw [addEntry_of_row P f db username name amount d hdata hn hc hs] at hok ⊢
          rw [updateUserData_shape _ hdata] at hok ⊢
          exact ⟨_, by simpa using hok.symm, rfl⟩
        · simp [addEntry, h1, h2, hn, hc, hdata, jsonDataBytes, not_le.mp hs] at hok

/-- A returning `deleteEntry` has written the returned document to the rows keyed by
the lower-cased username and to no other row. -/
theorem deleteEntry_ok_db (P : Platform) (f : Field) (db : Db) (username name : String)
    (r : Option Ledger)
    (hok : (deleteEntry P f db username name).1 = .ok r) :
    ∃ d', r = some d' ∧
      (deleteEntry P f db username name).2 =
        { db with users := db.users.map (fun row =>
            if row.username = sqlLower username then { row with data := d' } else row) } := by
  cases hdata : getUserData db username with
  | none =>
    obtain ⟨⟨e, he⟩, -⟩ := deleteEntry_without_data P f db username name hdata
    rw [he] at hok
    exact absurd hok (by simp)
  | some d =>
    obtain ⟨h1, h2, -, -⟩ := getUserData_some hdata
    by_cases hn : name = ""
    · simp [deleteEntry, h1, h2, hn] at hok
    · rw [deleteEntry_of_row P f db username name d hdata hn] at hok ⊢
      by_cases hl : ((f.get d).filter
          (fun e => decide (P.toLowerCase e.name ≠ P.toLowerCase name))).length =
          (f.get d).length
      · rw [if_pos hl] at hok
        exact absurd hok (by simp)
      · rw [if_neg hl] at hok ⊢
        rw [updateUserData_shape _ hdata] at hok ⊢
        exact ⟨_, by simpa using hok.symm, rfl⟩

/-- C15 (counterexample). The Kelvin sign U+212A lower-cases to `k`, so the
one-character text `kelvinName` is a case variant of the valid username `k`. Called
with `k` the user methods read the row of `k`; called with `kelvinName` they fail the
validation of the username: `checkUserExists` throws, `getUserData` returns `null`
and `addExpense` throws without reading the row. -/
theorem user_methods_reject_kelvin_variant :
    usernameIsValid "k" = true ∧
      lowercase kelvinName = lowercase "k" ∧
      kelvinName ≠ "k" ∧
      checkUserExists kelvinDb "k" = .ok true ∧
      checkUserExists kelvinDb kelvinName = .error .usernameInvalid ∧
      getUserData kelvinDb "k" = some emptyLedger ∧
      getUserData kelvinDb kelvinName = none ∧
      (addExpense node kelvinDb "k" "Rent" (.number (.fin 1200))).1 = .ok (some rentLedger) ∧
      addExpense node kelvinDb kelvinName "Rent" (.number (.fin 1200)) =
        (.error .usernameInvalid, kelvinDb) := by
  decide

/-- C15 (amended). For valid usernames `u` and `v` with the same lower-cased form,
each user method called with `v` gives the result and the database it gives when
called with `u`, and the row it reads or writes is the one keyed by the lower-cased
`u`: `checkUserExists` tells whether such a row exists, `getUserData` returns the
document of the first such row, `deleteUser` removes exactly those rows, `createUser`
appends the row with that username (or fails on the uniqueness of usernames when one
is present), and a returning mutator has written the returned document to exactly
those rows. -/
theorem user_methods_case_insensitive (P : Platform) (B : Bcrypt) (db : Db)
    (u v password name : String) (amount : JSValue)
    (hu : usernameIsValid u = true) (hvv : usernameIsValid v = true)
    (hv : sqlLower v = sqlLower u) :
    (checkUserExists db v = checkUserExists db u ∧
      createUser B db v password = createUser B db u password ∧
      getUserData db v = getUserData db u ∧
      deleteUser db v = deleteUser db u ∧
      addExpense P db v name amount = addExpense P db u name amount ∧
      deleteExpense P db v name = deleteExpense P db u name ∧
      addIncome P db v name amount = addIncome P db u name amount ∧
      deleteIncome P db v name = deleteIncome P db u name) ∧
    (db.available = true →
      checkUserExists db v =
          .ok (decide ((db.users.filter (fun r => r.username = sqlLower u)).length > 0)) ∧
        getUserData db v =
          ((db.users.filter (fun r => r.username = sqlLower u)).head?).map UserRow.data ∧
        deleteUser db v =
          (.ok (decide ((db.users.filter (fun r => r.username = sqlLower u)).length > 0)),
            { db with users :=
                db.users.filter (fun r => decide (r.username ≠ sqlLower u)) }) ∧
        (validatePassword password = .ok () →
          createUser B db v password =
            if violatesUniqueUsername db (sqlLower u) then (.error .uniqueViolation, db)
            else
              (.ok { username := sqlLower u, password := B.hash password,
                     data := { expenses := [], incomes := [] } },
                { db with users := db.users ++
                    [{ username := sqlLower u, password := B.hash password,
                       data := { expenses := [], incomes := [] } }] }))) ∧
    (∀ f r, (addEntry P f db v name amount).1 = .ok r →
      ∃ d', r = some d' ∧
        (addEntry P f db v name amount).2 =
          { db with users := db.users.map (fun row =>
              if row.username = sqlLower u then { row with data := d' } else row) }) ∧
    (∀ f r, (deleteEntry P f db v name).1 = .ok r →
      ∃ d', r = some d' ∧
        (deleteEntry P f db v name).2 =
          { db with users := db.users.map (fun row =>
              if row.username = sqlLower u then { row with data := d' } else row) }) ∧
    (∀ f d, getUserData db u = some d → name ≠ "" →
      (isNaN P amount || (parseFloat P amount).leZero) = false →
      jsonLedgerBytes P d +
        jsonEntryBytes P { name := name, amount := .number (parseFloat P amount) } ≤
          dataSizeLimit →
      addEntry P f db v name amount =
        (.ok (some (f.set d (entriesAfterAdd P name (parseFloat P amount) (f.get d))).toJSON),
          { db with users := db.users.map (fun row =>
              if row.username = sqlLower u then
                { row with data :=
                    (f.set d (entriesAfterAdd P name (parseFloat P amount) (f.get d))).toJSON }
              else row) })) ∧
    (∀ f d, getUserData db u = some d → name ≠ "" →
      deleteEntry P f db v name =
        if (entriesAfterDelete P name (f.get d)).length = (f.get d).length then
          (.error (.notFound f name), db)
        else
          (.ok (some (f.set d (entriesAfterDelete P name (f.get d))).toJSON),
            { db with users := db.users.map (fun row =>
                if row.username = sqlLower u then
                  { row with data := (f.set d (entriesAfterDelete P name (f.get d))).toJSON }
                else row) })) := by
  have hu0 : u ≠ "" := ((usernameIsValid_iff u).mp hu).1
  have hv0 : v ≠ "" := ((usernameIsValid_iff v).mp hvv).1
  have hget : getUserData db v = getUserData db u := by
    simp only [getUserData, hu0, hv0, hu, hvv, hv, if_false, Bool.not_true,
      Bool.false_eq_true]
  refine ⟨⟨?_, ?_, hget, ?_, ?_, ?_, ?_, ?_⟩, ?_, ?_, ?_, ?_, ?_⟩
  · simp only [checkUserExists, hu0, hv0, hu, hvv, hv, if_false, Bool.not_true,
      Bool.false_eq_true]
  · simp only [createUser, hu0, hv0, hu, hvv, hv, if_false, Bool.not_true,
      Bool.false_eq_true]
  · simp only [deleteUser, hu0, hv0, hu, hvv, hv, if_false, Bool.not_true,
      Bool.false_eq_true]
  · simp only [addExpense, addEntry, updateUserData, hget, hu0, hv0, hu, hvv, hv, if_false,
      Bool.not_true, Bool.false_eq_true]
  · simp only [deleteExpense, deleteEntry, updateUserData, hget, hu0, hv0, hu, hvv, hv,
      if_false, Bool.not_true, Bool.false_eq_true]
  · simp only [addIncome, addEntry, updateUserData, hget, hu0, hv0, hu, hvv, hv, if_false,
      Bool.not_true, Bool.false_eq_true]
  · simp only [deleteIncome, deleteEntry, updateUserData, hget, hu0, hv0, hu, hvv, hv,
      if_false, Bool.not_true, Bool.false_eq_true]
  · intro hav
    refine ⟨?_, ?_, ?_, ?_⟩
    · simp only [checkUserExists, hv0, hvv, hv, hav, if_false, Bool.not_true,
        Bool.false_eq_true]
    · rw [getUserData_eq db v hv0 hvv hav, hv]
    · simp only [deleteUser, hv0, hvv, hv, hav, if_false, Bool.not_true,
        Bool.false_eq_true]
    · intro hp
      have hp0 : password ≠ "" := by
        intro h
        rw [h] at hp
        exact absurd hp (by decide)
      simp only [createUser, hv0, hvv, hv, hav, hp, hp0, if_false, Bool.not_true,
        Bool.false_eq_true]
  · intro f r hok
    have h := addEntry_ok_db P f db v name amount r hok
    rw [hv] at h
    exact h
  · intro f r hok
    have h := deleteEntry_ok_db P f db v name r hok
    rw [hv] at h
    exact h
  · intro f d hd hn hc hs
    have hdv : getUserData db v = some d := by rw [hget, hd]
    rw [addEntry_of_row P f db v name amount d hdv hn hc hs, updateUserData_shape _ hdv, hv]
    rfl
  · intro f d hd hn
    have hdv : getUserData db v = some d := by rw [hget, hd]
    rw [deleteEntry_of_row P f db v name d hdv hn]
    by_cases hl : ((f.get d).filter
        (fun e => decide (P.toLowerCase e.name ≠ P.toLowerCase name))).length =
        (f.get d).length
    · rw [if_pos hl, entriesAfterDelete, if_pos hl]
    · rw [if_neg hl, entriesAfterDelete, if_neg hl, updateUserData_shape _ hdv, hv]

/-- Instance of `user_methods_case_insensitive`: the usernames `alice` and `ALICE`. -/
theorem user_methods_case_insensitive_witness :
    (checkUserExists (aliceDb rentLedger) "ALICE" = checkUserExists (aliceDb rentLedger) "alice" ∧
      createUser sampleBcrypt (aliceDb rentLedger) "ALICE" "Passw0rd!" =
        createUser sampleBcrypt (aliceDb rentLedger) "alice" "Passw0rd!" ∧
      getUserData (aliceDb rentLedger) "ALICE" = getUserData (aliceDb rentLedger) "alice" ∧
      deleteUser (aliceDb rentLedger) "ALICE" = deleteUser (aliceDb rentLedger) "alice" ∧
      addExpense node (aliceDb rentLedger) "ALICE" "Food" (.number (.fin 40)) =
        addExpense node (aliceDb rentLedger) "alice" "Food" (.number (.fin 40)) ∧
      deleteExpense node (aliceDb rentLedger) "ALICE" "Food" =
        deleteExpense node (aliceDb rentLedger) "alice" "Food" ∧
      addIncome node (aliceDb rentLedger) "ALICE" "Food" (.number (.fin 40)) =
        addIncome node (aliceDb rentLedger) "alice" "Food" (.number (.fin 40)) ∧
      deleteIncome node (aliceDb rentLedger) "ALICE" "Food" =
        deleteIncome node (aliceDb rentLedger) "alice" "Food") ∧
    ((aliceDb rentLedger).available = true →
      checkUserExists (aliceDb rentLedger) "ALICE" =
          .ok (decide (((aliceDb rentLedger).users.filter
            (fun r => r.username = sqlLower "alice")).length > 0)) ∧
        getUserData (aliceDb rentLedger) "ALICE" =
          (((aliceDb rentLedger).users.filter
            (fun r => r.username = sqlLower "alice")).head?).map UserRow.data ∧
        deleteUser (aliceDb rentLedger) "ALICE" =
          (.ok (decide (((aliceDb rentLedger).users.filter
              (fun r => r.username = sqlLower "alice")).length > 0)),
            { (aliceDb rentLedger) with
              users := (aliceDb rentLedger).users.filter (fun r => decide (r.username ≠ sqlLower "alice")) }) ∧
        (validatePassword "Passw0rd!" = .ok () →
          createUser sampleBcrypt (aliceDb rentLedger) "ALICE" "Passw0rd!" =
            if violatesUniqueUsername (aliceDb rentLedger) (sqlLower "alice") then
              (.error .uniqueViolation, aliceDb rentLedger)
            else
              (.ok { username := sqlLower "alice", password := sampleBcrypt.hash "Passw0rd!",
                     data := { expenses := [], incomes := [] } },
                { (aliceDb rentLedger) with
                  users := (aliceDb rentLedger).users ++ [{ username := sqlLower "alice", password := sampleBcrypt.hash "Passw0rd!", data := { expenses := [], incomes := [] } }] }))) ∧
    (∀ f r, (addEntry node f (aliceDb rentLedger) "ALICE" "Food" (.number (.fin 40))).1 = .ok r →
      ∃ d', r = some d' ∧
        (addEntry node f (aliceDb rentLedger) "ALICE" "Food" (.number (.fin 40))).2 =
          { (aliceDb rentLedger) with
            users := (aliceDb rentLedger).users.map (fun row => if row.username = sqlLower "alice" then { row with data := d' } else row) }) ∧
    (∀ f r, (deleteEntry node f (aliceDb rentLedger) "ALICE" "Food").1 = .ok r →
      ∃ d', r = some d' ∧
        (deleteEntry node f (aliceDb rentLedger) "ALICE" "Food").2 =
          { (aliceDb rentLedger) with
            users := (aliceDb rentLedger).users.map (fun row => if row.username = sqlLower "alice" then { row with data := d' } else row) }) ∧
    (∀ f d, getUserData (aliceDb rentLedger) "alice" = some d → "Food" ≠ "" →
      (isNaN node (.number (.fin 40)) || (parseFloat node (.number (.fin 40))).leZero) = false →
      jsonLedgerBytes node d +
        jsonEntryBytes node
          { name := "Food", amount := .number (parseFloat node (.number (.fin 40))) } ≤
          dataSizeLimit →
      addEntry node f (aliceDb rentLedger) "ALICE" "Food" (.number (.fin 40)) =
        (.ok (some (f.set d (entriesAfterAdd node "Food"
            (parseFloat node (.number (.fin 40))) (f.get d))).toJSON),
          { (aliceDb rentLedger) with
            users := (aliceDb rentLedger).users.map (fun row => if row.username = sqlLower "alice" then { row with data := (f.set d (entriesAfterAdd node "Food" (parseFloat node (.number (.fin 40))) (f.get d))).toJSON } else row) })) ∧
    (∀ f d, getUserData (aliceDb rentLedger) "alice" = some d → "Food" ≠ "" →
      deleteEntry node f (aliceDb rentLedger) "ALICE" "Food" =
        if (entriesAfterDelete node "Food" (f.get d)).length = (f.get d).length then
          (.error (.notFound f "Food"), aliceDb rentLedger)
        else
          (.ok (some (f.set d (entriesAfterDelete node "Food" (f.get d))).toJSON),
            { (aliceDb rentLedger) with
              users := (aliceDb rentLedger).users.map (fun row => if row.username = sqlLower "alice" then { row with data := (f.set d (entriesAfterDelete node "Food" (f.get d))).toJSON } else row) })) :=
  user_methods_case_insensitive node sampleBcrypt (aliceDb rentLedger) "alice" "ALICE"
    "Passw0rd!" "Food" (.number (.fin 40)) (by decide) (by decide) (by decide)

/-! ## The size check is not an upper bound -/

/-- C19 (failing input). On the document with the one expense `Rent` the quantity
the check compares with the limit for the new expense `Food` of amount 1 is 83, the
bytes of the stored document plus the bytes of the standalone entry, and the
document that is written has 84 bytes: the comma before the new entry is not counted.
On `largeLedger` the quantity is exactly the limit, the call is accepted, and the
document that is written has one byte more than the limit. -/
theorem size_check_below_persisted_size :
    jsonDataBytes node (getUserData (aliceDb rentLedger) "alice") +
        jsonEntryBytes node { name := "Food", amount := .number (parseFloat node (.number (.fin 1))) }
        = 83 ∧
      (addExpense node (aliceDb rentLedger) "alice" "Food" (.number (.fin 1))).1 =
        .ok (some { expenses := [{ name := "Rent", amount := .number (.fin 1200) },
                                 { name := "Food", amount := .number (.fin 1) }],
                    incomes := [] }) ∧
      jsonLedgerBytes node
        { expenses := [{ name := "Rent", amount := .number (.fin 1200) },
                       { name := "Food", amount := .number (.fin 1) }],
          incomes := [] } = 84 ∧
      jsonLedgerBytes node largeLedger +
        jsonEntryBytes node { name := letters 'l' 87358, amount := .number (.fin 1) } =
        dataSizeLimit ∧
      (addExpense node (aliceDb largeLedger) "alice" (letters 'l' 87358)
        (.number (.fin 1))).1 = .ok (some largerLedger) ∧
      jsonLedgerBytes node largerLedger = dataSizeLimit + 1 := by
  refine ⟨by decide, by decide, by decide, ?_,
    (addExpense_elevenExpenses 87356 87358 (by decide) (by decide) (by decide)).1,
    (jsonLedgerBytes_twelveExpenses 87356 87358).trans (by decide)⟩
  have h1 : jsonLedgerBytes node largeLedger = 11 * 87356 + 280 :=
    jsonLedgerBytes_elevenExpenses 87356
  have h2 := jsonEntryBytes_letters 'l' 87358 (by decide)
  rw [h1, h2]
  decide

/-! ## Frame of the mutators -/

theorem toJSON_get_set_other (f : Field) (d : Ledger) (xs : List Entry)
    (hjson : d.toJSON = d) : f.other.get (f.set d xs).toJSON = f.other.get d := by
  cases d with
  | mk ex inc =>
    simp only [Ledger.toJSON, Ledger.mk.injEq] at hjson
    cases f <;> simp [Field.other, Field.get, Field.set, Ledger.toJSON, hjson.1, hjson.2]

theorem updateUserData_ok_shape {db : Db} {username : String} {d : Ledger} (data : Ledger)
    (r : Option Ledger) (hdata : getUserData db username = some d)
    (hok : (updateUserData db username data).1 = .ok r) :
    r = some data.toJSON ∧
      getUserData (updateUserData db username data).2 username = some data.toJSON := by
  obtain ⟨hres, hget⟩ := updateUserData_of_row data hdata
  rw [hres] at hok
  exact ⟨by simpa using hok.symm, hget⟩

/-- A call of `addEntry` that returns with a stored row returns and stores a document
written by the `UPDATE`, which differs from the loaded one in field `f` only. -/
theorem addEntry_ok_shape (P : Platform) (f : Field) (db : Db) (username name : String)
    (amount : JSValue) (d : Ledger) (r : Option Ledger)
    (hdata : getUserData db username = some d)
    (hok : (addEntry P f db username name amount).1 = .ok r) :
    ∃ xs, r = some (f.set d xs).toJSON ∧
      getUserData (addEntry P f db username name amount).2 username =
        some (f.set d xs).toJSON := by
  obtain ⟨h1, h2, -, -⟩ := getUserData_some hdata
  by_cases hn : name = ""
  · simp [addEntry, h1, h2, hn] at hok
  · cases hc : (isNaN P amount || (parseFloat P amount).leZero) with
    | true => simp [addEntry, h1, h2, hn, hc] at hok
    | false =>
      by_cases hs : jsonLedgerBytes P d +
          jsonEntryBytes P { name := name, amount := .number (parseFloat P amount) } ≤
            dataSizeLimit
      · rw [addEntry_of_row P f db username name amount d hdata hn hc hs] at hok ⊢
        exact ⟨_, updateUserData_ok_shape _ r hdata hok⟩
      · simp [addEntry, h1, h2, hn, hc, hdata, jsonDataBytes, not_le.mp hs] at hok

/-- A call of `deleteEntry` that returns with a stored row returns and stores a
document written by the `UPDATE`, which differs from the loaded one in field `f` only. -/
theorem deleteEntry_ok_shape (P : Platform) (f : Field) (db : Db) (username name : String)
    (d : Ledger) (r : Option Ledger)
    (hdata : getUserData db username = some d)
    (hok : (deleteEntry P f db username name).1 = .ok r) :
    ∃ xs, r = some (f.set d xs).toJSON ∧
      getUserData (deleteEntry P f db username name).2 username =
        some (f.set d xs).toJSON := by
  obtain ⟨h1, h2, -, -⟩ := getUserData_some hdata
  by_cases hn : name = ""
  · simp [deleteEntry, h1, h2, hn] at hok
  · rw [deleteEntry_of_row P f db username name d hdata hn] at hok ⊢
    by_cases hl : ((f.get d).filter
        (fun e => decide (P.toLowerCase e.name ≠ P.toLowerCase name))).length =
        (f.get d).length
    · rw [if_pos hl] at hok
      exact absurd hok (by simp)
    · rw [if_neg hl] at hok ⊢
      exact ⟨_, updateUserData_ok_shape _ r hdata hok⟩

/-- C21. A successful `addExpense` or `deleteExpense` (field `expenses`) returns and
stores a document whose `incomes` list is the one that was loaded, and a successful
`addIncome` or `deleteIncome` (field `incomes`) one whose `expenses` list is the one
that was loaded. -/
theorem mutators_leave_other_list (P : Platform) (f : Field) (db : Db)
    (username name : String) (amount : JSValue) (d : Ledger)
    (hdata : getUserData db username = some d) (hjson : d.toJSON = d) :
    (∀ r, (addEntry P f db username name amount).1 = .ok r →
        ∃ d', r = some d' ∧
          getUserData (addEntry P f db username name amount).2 username = some d' ∧
          f.other.get d' = f.other.get d) ∧
      (∀ r, (deleteEntry P f db username name).1 = .ok r →
        ∃ d', r = some d' ∧
          getUserData (deleteEntry P f db username name).2 username = some d' ∧
          f.other.get d' = f.other.get d) := by
  constructor
  · intro r hok
    obtain ⟨xs, hr, hget⟩ := addEntry_ok_shape P f db username name amount d r hdata hok
    exact ⟨_, hr, hget, toJSON_get_set_other f d xs hjson⟩
  · intro r hok
    obtain ⟨xs, hr, hget⟩ := deleteEntry_ok_shape P f db username name d r hdata hok
    exact ⟨_, hr, hget, toJSON_get_set_other f d xs hjson⟩

/-- Instance of `mutators_leave_other_list`: expenses are added to and deleted from a
document that also holds an income. -/
theorem mutators_leave_other_list_witness :
    (∀ r, (addEntry node .expenses (aliceDb mixedLedger) "alice" "Rent"
          (.number (.fin 1300))).1 = .ok r →
        ∃ d', r = some d' ∧
          getUserData (addEntry node .expenses (aliceDb mixedLedger) "alice" "Rent"
            (.number (.fin 1300))).2 "alice" = some d' ∧
          Field.expenses.other.get d' = Field.expenses.other.get mixedLedger) ∧
      (∀ r, (deleteEntry node .expenses (aliceDb mixedLedger) "alice" "Rent").1 = .ok r →
        ∃ d', r = some d' ∧
          getUserData (deleteEntry node .expenses (aliceDb mixedLedger) "alice" "Rent").2
            "alice" = some d' ∧
          Field.expenses.other.get d' = Field.expenses.other.get mixedLedger) :=
  mutators_leave_other_list node .expenses (aliceDb mixedLedger) "alice" "Rent"
    (.number (.fin 1300)) mixedLedger (by decide) (by decide)

/-! ## Missing user data -/

/-- C22. The function `getUserData` is total: it returns `null` for an empty
username, a username the validation rejects, a rejected query and a username without
a row, and it returns a document exactly when the username is valid, the query
resolves and a row for the lower-cased username exists, namely the document of the
first such row. When it returns `null` the four mutators throw and write nothing; when
the checks that come before the test of the data pass (non-empty name, accepted
amount, entry within the size limit) the error thrown is `User data does not exist or
the ... field is missing`. -/
theorem getUserData_null_or_stored (P : Platform) (f : Field) (db : Db)
    (username name : String) (amount : JSValue) :
    (username = "" → getUserData db username = none) ∧
      (usernameIsValid username = false → getUserData db username = none) ∧
      (db.available = false → getUserData db username = none) ∧
      (db.users.filter (fun r => r.username = sqlLower username) = [] →
        getUserData db username = none) ∧
      (∀ d, getUserData db username = some d ↔
        username ≠ "" ∧ usernameIsValid username = true ∧ db.available = true ∧
          ((db.users.filter (fun r => r.username = sqlLower username)).head?).map
            UserRow.data = some d) ∧
      (getUserData db username = none →
        (∃ e, (addEntry P f db username name amount).1 = .error e) ∧
          (addEntry P f db username name amount).2 = db ∧
          (∃ e, (deleteEntry P f db username name).1 = .error e) ∧
          (deleteEntry P f db username name).2 = db) ∧
      (getUserData db username = none → usernameIsValid username = true → name ≠ "" →
        (isNaN P amount || (parseFloat P amount).leZero) = false →
        4 + jsonEntryBytes P { name := name, amount := .number (parseFloat P amount) } ≤
          dataSizeLimit →
        addEntry P f db username name amount = (.error (.dataMissing f), db)) ∧
      (getUserData db username = none → usernameIsValid username = true → name ≠ "" →
        deleteEntry P f db username name = (.error (.dataMissing f), db)) ∧
      (Err.dataMissing .expenses).message =
        "User data does not exist or the expenses field is missing" ∧
      (Err.dataMissing .incomes).message =
        "User data does not exist or the incomes field is missing" := by
  refine ⟨?_, ?_, ?_, ?_, ?_, ?_, ?_, ?_, by decide, by decide⟩
  · intro h
    simp [getUserData, h]
  · intro h
    simp [getUserData, h]
  · intro h
    simp [getUserData, h]
  · intro h
    simp only [getUserData, h]
    split_ifs <;> rfl
  · intro d
    constructor
    · intro h
      obtain ⟨h0, hv, hav, -⟩ := getUserData_some h
      exact ⟨h0, hv, hav, by rw [← getUserData_eq db username h0 hv hav, h]⟩
    · rintro ⟨h0, hv, hav, hrow⟩
      rw [getUserData_eq db username h0 hv hav, hrow]
  · intro hnone
    obtain ⟨ha1, ha2⟩ := addEntry_without_data P f db username name amount hnone
    obtain ⟨hd1, hd2⟩ := deleteEntry_without_data P f db username name hnone
    exact ⟨ha1, ha2, hd1, hd2⟩
  · intro hnone hv hn hc hs
    have h0 : username ≠ "" := ((usernameIsValid_iff username).mp hv).1
    simp only [addEntry, h0, hv, hn, hc, hnone, jsonDataBytes, if_false, Bool.not_true,
      Bool.false_eq_true, gt_iff_lt, Nat.not_lt.mpr hs]
  · intro hnone hv hn
    have h0 : username ≠ "" := ((usernameIsValid_iff username).mp hv).1
    simp only [deleteEntry, h0, hv, hn, hnone, if_false, Bool.not_true, Bool.false_eq_true]

/-! ## A failed login -/

/-- C23. When the username or the password fails validation, no row of the user
exists, or the password does not match the stored hash, `POST /login` answers with a
body of status 1, sets no cookie and leaves the database, hence the refresh-token
store, exactly as it was. -/
theorem postLogin_failure_keeps_store (J : Jwt) (B : Bcrypt) (db : Db)
    (username password : String)
    (hfail : (∃ e, validateUsername username = .error e) ∨
      (∃ e, validatePassword password = .error e) ∨
      (db.users.filter (fun r => r.username = sqlLower username)).head? = none ∨
      (∃ user, (db.users.filter (fun r => r.username = sqlLower username)).head? = some user ∧
        B.compare password user.password = false)) :
    (postLogin J B db username password).2 = db ∧
      (postLogin J B db username password).2.refreshtokens = db.refreshtokens ∧
      (postLogin J B db username password).1.cookies = [] ∧
      ∃ message, (postLogin J B db username password).1.response =
        .json 200 (.message 1 message) := by
  have key : (postLogin J B db username password).2 = db ∧
      (postLogin J B db username password).1.cookies = [] ∧
      ∃ message, (postLogin J B db username password).1.response =
        .json 200 (.message 1 message) := by
    cases hv : validateUsername username with
    | error e =>
      exact ⟨by simp [postLogin, hv], by simp [postLogin, hv], e.message,
        by simp [postLogin, hv]⟩
    | ok u =>
      cases hp : validatePassword password with
      | error e =>
        exact ⟨by simp [postLogin, hv, hp], by simp [postLogin, hv, hp], e.message,
          by simp [postLogin, hv, hp]⟩
      | ok u' =>
        cases hav : db.available with
        | false =>
          exact ⟨by simp [postLogin, hv, hp, hav], by simp [postLogin, hv, hp, hav],
            "Login unpermitted due to error.", by simp [postLogin, hv, hp, hav]⟩
        | true =>
          cases hrow : (db.users.filter (fun r => r.username = sqlLower username)).head? with
          | none =>
            exact ⟨by simp [postLogin, hv, hp, hav, hrow], by simp [postLogin, hv, hp, hav, hrow],
              "User not found!", by simp [postLogin, hv, hp, hav, hrow]⟩
          | some user =>
            cases hpw : B.compare password user.password with
            | false =>
              exact ⟨by simp [postLogin, hv, hp, hav, hrow, hpw],
                by simp [postLogin, hv, hp, hav, hrow, hpw], "Credentials do not match!",
                by simp [postLogin, hv, hp, hav, hrow, hpw]⟩
            | true =>
              exfalso
              rcases hfail with ⟨e, he⟩ | ⟨e, he⟩ | hnone | ⟨user', hu', hc'⟩
              · rw [hv] at he
                exact absurd he (by simp)
              · rw [hp] at he
                exact absurd he (by simp)
              · rw [hrow] at hnone
                exact absurd hnone (by simp)
              · rw [hrow] at hu'
                simp only [Option.some.injEq] at hu'
                subst hu'
                rw [hpw] at hc'
                exact absurd hc' (by simp)
  exact ⟨key.1, by rw [key.1], key.2.1, key.2.2⟩

/-- Instance of `postLogin_failure_keeps_store`: `alice` sends a well-formed password
that does not match the stored hash. -/
theorem postLogin_failure_keeps_store_witness :
    (postLogin sampleJwt sampleBcrypt loginDb "alice" "Wr0ng-pass!").2 = loginDb ∧
      (postLogin sampleJwt sampleBcrypt loginDb "alice" "Wr0ng-pass!").2.refreshtokens =
        loginDb.refreshtokens ∧
      (postLogin sampleJwt sampleBcrypt loginDb "alice" "Wr0ng-pass!").1.cookies = [] ∧
      ∃ message, (postLogin sampleJwt sampleBcrypt loginDb "alice" "Wr0ng-pass!").1.response =
        .json 200 (.message 1 message) :=
  postLogin_failure_keeps_store sampleJwt sampleBcrypt loginDb "alice" "Wr0ng-pass!"
    (Or.inr (Or.inr (Or.inr
      ⟨{ username := "alice", password := "$2a$10$Passw0rd!", data := emptyLedger },
        by decide, by decide⟩)))

/-! ## The size check rejects an update or an append near the limit -/

/-- With a stored row, a non-empty name and an accepted amount, `addEntry` throws the
size error when the stored document and the standalone entry together exceed the limit;
the database is left as it was. -/
theorem addEntry_size_exceeded (P : Platform) (f : Field) (db : Db) (username name : String)
    (amount : JSValue) (d : Ledger)
    (hdata : getUserData db username = some d) (hname : name ≠ "")
    (hcheck : (isNaN P amount || (parseFloat P amount).leZero) = false)
    (hbig : dataSizeLimit < jsonLedgerBytes P d +
      jsonEntryBytes P { name := name, amount := .number (parseFloat P amount) }) :
    addEntry P f db username name amount = (.error .sizeLimitExceeded, db) := by
  obtain ⟨h1, h2, -, -⟩ := getUserData_some hdata
  unfold addEntry
  simp only [h1, h2, hname, hcheck, hdata, jsonDataBytes, if_false, Bool.not_true,
    Bool.false_eq_true, gt_iff_lt, hbig, if_true]

theorem letters_ne_empty (c : Char) (n : Nat) (hn : 0 < n) : letters c n ≠ "" := by
  intro h
  have h' : List.replicate n c = [] := congrArg String.data h
  cases n with
  | zero => exact absurd hn (by decide)
  | succ k => simp [List.replicate_succ] at h'

theorem jsonEntryBytes_letters_amount (c : Char) (m : Nat) (q : ℚ)
    (hc : jsonCharBytes c = 1) (hq : (node.numberToString q).utf8ByteSize = 1) :
    jsonEntryBytes node { name := letters c m, amount := .number (.fin q) } = m + 22 := by
  simp only [jsonEntryBytes, jsonAmountBytes, hq, jsonStringBytes_letters c m hc]
  omega

/-- An update of the first of the twelve expenses of `twelveExpenses n m` is rejected
when the document and the standalone entry exceed the limit. -/
theorem addExpense_twelveExpenses_update_rejected (n m : Nat) (hn : 0 < n)
    (hbig : dataSizeLimit < 11 * n + m + 303 + (n + 22)) :
    addExpense node (aliceDb (twelveExpenses n m)) "alice" (letters 'A' n)
        (.number (.fin 2)) = (.error .sizeLimitExceeded, aliceDb (twelveExpenses n m)) := by
  apply addEntry_size_exceeded node .expenses _ "alice" _ _ (twelveExpenses n m)
    (getUserData_aliceDb _) (letters_ne_empty 'A' n hn) (by decide)
  have hp : parseFloat node (.number (.fin 2)) = .fin 2 := rfl
  rw [hp, jsonLedgerBytes_twelveExpenses,
    jsonEntryBytes_letters_amount 'A' n 2 (by decide) (by decide)]
  exact hbig

/-- An append to `twelveExpenses n m` of an expense named by `k` copies of `m` is
rejected when the document and the standalone entry exceed the limit. -/
theorem addExpense_twelveExpenses_append_rejected (n m k : Nat)
    (hbig : dataSizeLimit < 11 * n + m + 303 + (k + 22)) (hk : 0 < k) :
    addExpense node (aliceDb (twelveExpenses n m)) "alice" (letters 'm' k)
        (.number (.fin 1)) = (.error .sizeLimitExceeded, aliceDb (twelveExpenses n m)) := by
  apply addEntry_size_exceeded node .expenses _ "alice" _ _ (twelveExpenses n m)
    (getUserData_aliceDb _) (letters_ne_empty 'm' k hk) (by decide)
  have hp : parseFloat node (.number (.fin 1)) = .fin 1 := rfl
  rw [hp, jsonLedgerBytes_twelveExpenses,
    jsonEntryBytes_letters_amount 'm' k 1 (by decide) (by decide)]
  exact hbig

theorem twelveExpenses_no_match (n m k : Nat) (hn : 0 < n) (hm : 0 < m) :
    ∀ e ∈ Field.expenses.get (twelveExpenses n m),
      node.toLowerCase e.name ≠ node.toLowerCase (letters 'm' k) := by
  intro e he
  simp only [Field.get, twelveExpenses, elevenExpenses, List.map_cons, List.map_nil,
    List.cons_append, List.nil_append, List.mem_cons, List.mem_nil_iff, or_false] at he
  rcases he with h | h | h | h | h | h | h | h | h | h | h | h <;> subst h
  all_goals first
    | exact toLowerCase_letters_ne _ _ n k (by decide) hn
    | exact toLowerCase_letters_ne _ _ m k (by decide) hm

/-- C2 (counterexample). The stored document `cappedLedger` has 1048576 bytes, within
the limit, and holds the expense named by 87356 copies of `a` with amount 1. The call
`addExpense` with the name of 87356 copies of `A`, equal ignoring case, and the valid
amount 2 does not update the entry: the size check, which runs before the loop, adds
the 87378 bytes of the standalone entry and the call throws `Data size limit
exceeded`, leaving the database as it was. -/
theorem addExpense_update_rejected_at_limit :
    jsonLedgerBytes node cappedLedger ≤ dataSizeLimit ∧
      ({ name := letters 'a' 87356, amount := .number (.fin 1) } : Entry) ∈
        Field.expenses.get cappedLedger ∧
      node.toLowerCase (letters 'a' 87356) = node.toLowerCase (letters 'A' 87356) ∧
      Amount.number (.fin 1) ≠ Amount.number (.fin 2) ∧
      isNaN node (.number (.fin 2)) = false ∧
      parseFloat node (.number (.fin 2)) = .fin 2 ∧
      addExpense node (aliceDb cappedLedger) "alice" (letters 'A' 87356)
          (.number (.fin 2)) = (.error .sizeLimitExceeded, aliceDb cappedLedger) := by
  refine ⟨le_of_eq ((jsonLedgerBytes_twelveExpenses 87356 87357).trans (by decide)), ?_, ?_,
    by decide, by decide, rfl,
    addExpense_twelveExpenses_update_rejected 87356 87357 (by decide) (by decide)⟩
  · simp [Field.get, cappedLedger, twelveExpenses, elevenExpenses]
  · rw [toLowerCase_letters, toLowerCase_letters]
    rfl

/-- C4 (counterexample). The stored document `cappedLedger` has 1048576 bytes, within
the limit, and none of its expenses is named `m` ignoring case. The call
`addExpense("alice", "m", 1)` with this non-empty name and valid amount does not
append: the size check adds the 23 bytes of the standalone entry and the call throws
`Data size limit exceeded`, leaving the database as it was. -/
theorem addExpense_append_rejected_at_limit :
    jsonLedgerBytes node cappedLedger ≤ dataSizeLimit ∧
      (∀ e ∈ Field.expenses.get cappedLedger,
        node.toLowerCase e.name ≠ node.toLowerCase (letters 'm' 1)) ∧
      letters 'm' 1 = "m" ∧
      isNaN node (.number (.fin 1)) = false ∧
      parseFloat node (.number (.fin 1)) = .fin 1 ∧
      addExpense node (aliceDb cappedLedger) "alice" (letters 'm' 1)
          (.number (.fin 1)) = (.error .sizeLimitExceeded, aliceDb cappedLedger) :=
  ⟨le_of_eq ((jsonLedgerBytes_twelveExpenses 87356 87357).trans (by decide)),
    twelveExpenses_no_match 87356 87357 1 (by decide) (by decide), by decide, by decide, rfl,
    addExpense_twelveExpenses_append_rejected 87356 87357 1 (by decide) (by decide)⟩

end FinanceApp
